import Mathlib

/-!
# Fee gas meter of `internal/antewrapper/fee_meter.go`

A shallow embedding of `FeeGasMeter`: the wrapper around the SDK gas meter that
attributes gas to purposes (`used`, `calls`) and keeps two per-message-type coin
ledgers (`usedFees`, `feesWanted`).

Conventions of the embedding

* `uint64` values are `Nat`; every `uint64` addition of the source is written
  with an explicit `% uint64Size`.
* A Go `map[string]V` is a function `String → Option V`; `none` is an absent
  key. Reading `m[k]` is `GoMap.get`, which yields the zero value of `V` for an
  absent key, as Go does.
* A Go panic does not undo the writes made before it. Every mutating method
  therefore returns an `Outcome`: the meter as the call leaves it, the
  telemetry observations it emitted, and the panic value if one was raised.
* The wrapped meter is an interface value: its method table is a `GasMeter σ`
  and its state a `σ`.
-/

namespace Antewrapper

/-! ## Machine integers and Go maps -/

/-- The number of `uint64` values, 2^64. -/
def uint64Size : Nat := 2 ^ 64

/-- The type `sdkgas.Gas` is `uint64`. -/
abbrev Gas := Nat

/-- A `map[string]V`: `none` for a key with no entry. -/
abbrev GoMap (V : Type) := String → Option V

/-- The map `make(map[string]V)`: no entries. -/
def GoMap.empty {V : Type} : GoMap V := fun _ => none

/-- The read `m[k]`: the stored value, or the zero value of `V` when absent. -/
def GoMap.get {V : Type} (zero : V) (m : GoMap V) (k : String) : V :=
  (m k).getD zero

/-- The write `m[k] = v`. -/
def GoMap.set {V : Type} (m : GoMap V) (k : String) (v : V) : GoMap V :=
  fun k' => if k' = k then some v else m k'

/-! ## Panics -/

/-- The panic values that can travel through the meter. The first three are the
ones the SDK gas meters raise, the next three come from `sdk.Coin.Add`. -/
inductive Panic where
  | ErrorOutOfGas (descriptor : String)
  | ErrorGasOverflow (descriptor : String)
  | ErrorNegativeGasConsumed (descriptor : String)
  | invalidCoinDenominations (a b : String)
  | nilPointerDereference
  | intOverflow
  deriving DecidableEq, Repr

/-- One call of `telemetry.IncrCounterWithLabels`: the counter key, the value
(the `uint64` amount before its conversion to `float32`) and the labels. -/
structure Observation where
  keys : List String
  val : Nat
  labels : List (String × String)
  deriving DecidableEq, Repr

/-- What a mutating method leaves behind: the meter after the call, the
telemetry it emitted, and the panic it raised, if any. -/
structure Outcome (M : Type) where
  meter : M
  emitted : List Observation
  panic : Option Panic

/-! ## The wrapped meter -/

/-- The interface `sdkgas.GasMeter` as far as the wrapper calls it, over a
state `σ`. The two mutating methods return the new state and the panic they
raised, if any. -/
structure GasMeter (σ : Type) where
  GasConsumed : σ → Gas
  GasConsumedToLimit : σ → Gas
  Limit : σ → Gas
  RefundGas : σ → Gas → String → σ × Option Panic
  ConsumeGas : σ → Gas → String → σ × Option Panic
  IsPastLimit : σ → Bool
  IsOutOfGas : σ → Bool

/-! ## Coins -/

/-- Modelled from the spec: the bound of `sdk.Int` (SDK `types/int.go`, not
under src/), whose additions are "overflow-safe": a result of more than
`maxBitLen` bits is refused. The value 256 is the one of the SDK. -/
def maxBitLen : Nat := 256

/-- Modelled from the spec: `sdk.Coin` (SDK `types/coin.go`, not under src/), "a
monetary amount (integer magnitude + denomination)". `Amount` is an `sdk.Int`,
a wrapper of a `*big.Int`; `none` is the nil pointer that the zero value of
the struct holds. -/
structure Coin where
  Denom : String
  Amount : Option Int
  deriving DecidableEq, Repr

/-- The zero value of the struct `sdk.Coin`, which a map read yields for an
absent key: the empty denomination and a nil amount. -/
def Coin.zeroValue : Coin := ⟨"", none⟩

/-- Modelled from the spec: `sdk.Int.Add` (not under src/): big-integer addition
that dereferences both operands and panics when the magnitude of the sum needs
more than `maxBitLen` bits. -/
def intAdd (a b : Option Int) : Except Panic (Option Int) :=
  match a, b with
  | some x, some y =>
    if 2 ^ maxBitLen ≤ (x + y).natAbs then Except.error Panic.intOverflow
    else Except.ok (some (x + y))
  | _, _ => Except.error Panic.nilPointerDereference

/-- Modelled from the spec: `sdk.Coin.Add` (not under src/): "adding amounts in
differing denominations is a caller error (the underlying addition fails
loudly rather than silently coercing)"; with equal denominations the amounts
are added by `intAdd`. -/
def Coin.Add (coin coinB : Coin) : Except Panic Coin :=
  if coin.Denom ≠ coinB.Denom then
    Except.error (Panic.invalidCoinDenominations coin.Denom coinB.Denom)
  else
    match intAdd coin.Amount coinB.Amount with
    | Except.error e => Except.error e
    | Except.ok s => Except.ok ⟨coin.Denom, s⟩

/-! ## The meter -/

/-- The struct `FeeGasMeter`. `L` is the type of the logger, `σ` the state of
the wrapped meter. -/
structure FeeGasMeter (L σ : Type) where
  log : L
  base : σ
  used : GoMap Nat
  calls : GoMap Nat
  usedFees : GoMap Coin
  feesWanted : GoMap Coin

variable {L σ : Type}

/-- The constructor `NewFeeTracingMeterWrapper`: four fresh maps around the
given logger and base meter. -/
def NewFeeTracingMeterWrapper (logger : L) (baseMeter : σ) : FeeGasMeter L σ :=
  ⟨logger, baseMeter, GoMap.empty, GoMap.empty, GoMap.empty, GoMap.empty⟩

namespace FeeGasMeter

/-- Method `GasConsumed`. -/
def GasConsumed (B : GasMeter σ) (g : FeeGasMeter L σ) : Gas :=
  B.GasConsumed g.base

/-- Method `RefundGas`: the call is handed to the base meter. -/
def RefundGas (B : GasMeter σ) (g : FeeGasMeter L σ) (amount : Gas)
    (descriptor : String) : Outcome (FeeGasMeter L σ) :=
  let r := B.RefundGas g.base amount descriptor
  ⟨⟨g.log, r.1, g.used, g.calls, g.usedFees, g.feesWanted⟩, [], r.2⟩

/-- Method `GasConsumedToLimit`. -/
def GasConsumedToLimit (B : GasMeter σ) (g : FeeGasMeter L σ) : Gas :=
  B.GasConsumedToLimit g.base

/-- Method `Limit`. -/
def Limit (B : GasMeter σ) (g : FeeGasMeter L σ) : Gas :=
  B.Limit g.base

/-- The observation `ConsumeGas` hands to the telemetry package. -/
def consumeObservation (amount : Gas) (descriptor : String) : Observation :=
  ⟨["tx", "gas", "consumed"], amount, [("purpose", descriptor)]⟩

/-- Method `ConsumeGas`: the two table writes in `uint64` arithmetic, the
telemetry call, then the call of the base meter, whose panic (if any) leaves
the writes in place. -/
def ConsumeGas (B : GasMeter σ) (g : FeeGasMeter L σ) (amount : Gas)
    (descriptor : String) : Outcome (FeeGasMeter L σ) :=
  let cur := g.used.get 0 descriptor
  let used' := g.used.set descriptor ((cur + amount) % uint64Size)
  let cur := g.calls.get 0 descriptor
  let calls' := g.calls.set descriptor ((cur + 1) % uint64Size)
  let obs := consumeObservation amount descriptor
  let r := B.ConsumeGas g.base amount descriptor
  ⟨⟨g.log, r.1, used', calls', g.usedFees, g.feesWanted⟩, [obs], r.2⟩

/-- Method `IsPastLimit`. -/
def IsPastLimit (B : GasMeter σ) (g : FeeGasMeter L σ) : Bool :=
  B.IsPastLimit g.base

/-- Method `IsOutOfGas`. -/
def IsOutOfGas (B : GasMeter σ) (g : FeeGasMeter L σ) : Bool :=
  B.IsOutOfGas g.base

/-- Method `ConsumeFee`: reads `usedFees[msgType]`, adds, and writes the sum
back; a panic of the addition happens before the write. -/
def ConsumeFee (g : FeeGasMeter L σ) (amount : Coin) (msgType : String) :
    Outcome (FeeGasMeter L σ) :=
  let cur := g.usedFees.get Coin.zeroValue msgType
  match cur.Add amount with
  | Except.error e => ⟨g, [], some e⟩
  | Except.ok c =>
    ⟨⟨g.log, g.base, g.used, g.calls, g.usedFees.set msgType c, g.feesWanted⟩, [], none⟩

/-- Method `FeeWanted`: as `ConsumeFee`, on `feesWanted`. -/
def FeeWanted (g : FeeGasMeter L σ) (amount : Coin) (msgType : String) :
    Outcome (FeeGasMeter L σ) :=
  let cur := g.feesWanted.get Coin.zeroValue msgType
  match cur.Add amount with
  | Except.error e => ⟨g, [], some e⟩
  | Except.ok c =>
    ⟨⟨g.log, g.base, g.used, g.calls, g.usedFees, g.feesWanted.set msgType c⟩, [], none⟩

end FeeGasMeter

/-! ## A base meter for concrete runs -/

/-- State of `limitMeter`: the configured limit and the gas consumed so far. -/
structure LimitState where
  limit : Gas
  consumed : Gas
  deriving DecidableEq, Repr

/-- Modelled from the spec: the base resource meter (an SDK type, not under
src/). Consumption "signals an out-of-gas condition when cumulative
consumption would exceed a positive, non-zero limit. A zero limit means
unlimited and this condition never fires"; `consumedOrLimit` is
`min(consumed, limit)`; the two boolean queries tell whether consumption has
exceeded, respectively reached, the limit. As in the SDK meters, the total is
a `uint64` whose overflow panics, and a refund of more than was consumed
panics. The amount is added before the limit is checked. -/
def limitMeter : GasMeter LimitState where
  GasConsumed s := s.consumed
  GasConsumedToLimit s :=
    if 0 < s.limit ∧ s.limit < s.consumed then s.limit else s.consumed
  Limit s := s.limit
  RefundGas s amount descriptor :=
    if s.consumed < amount then (s, some (Panic.ErrorNegativeGasConsumed descriptor))
    else (⟨s.limit, s.consumed - amount⟩, none)
  ConsumeGas s amount descriptor :=
    if uint64Size ≤ s.consumed + amount then
      (⟨s.limit, uint64Size - 1⟩, some (Panic.ErrorGasOverflow descriptor))
    else if 0 < s.limit ∧ s.limit < s.consumed + amount then
      (⟨s.limit, s.consumed + amount⟩, some (Panic.ErrorOutOfGas descriptor))
    else (⟨s.limit, s.consumed + amount⟩, none)
  IsPastLimit s := decide (0 < s.limit ∧ s.limit < s.consumed)
  IsOutOfGas s := decide (0 < s.limit ∧ s.limit ≤ s.consumed)

/-- A fresh wrapper around a `limitMeter` with the given limit. -/
def freshMeter (limit : Gas) : FeeGasMeter Unit LimitState :=
  NewFeeTracingMeterWrapper () ⟨limit, 0⟩

/-- A meter whose entry for purpose "p" holds the largest `uint64`, after one
call. -/
def fullMeter : FeeGasMeter Unit LimitState :=
  ⟨(), ⟨0, 0⟩, GoMap.set GoMap.empty "p" (uint64Size - 1), GoMap.set GoMap.empty "p" 1,
    GoMap.empty, GoMap.empty⟩

/-- A meter whose ledgers hold, for the message type "MsgAdd", a coin of 10
stake in each ledger. -/
def stakedMeter : FeeGasMeter Unit LimitState :=
  ⟨(), ⟨0, 0⟩, GoMap.empty, GoMap.empty,
    GoMap.set GoMap.empty "MsgAdd" ⟨"stake", some 10⟩,
    GoMap.set GoMap.empty "MsgAdd" ⟨"stake", some 10⟩⟩

/-! ## Sequences of calls -/

/-- A sequence of `ConsumeGas(amount, purpose)` calls made by a caller that
recovers from each panic of the base meter and goes on: the meter after the
last call. -/
def consumeAll (B : GasMeter σ) (g : FeeGasMeter L σ) :
    List (Gas × String) → FeeGasMeter L σ
  | [] => g
  | c :: cs => consumeAll B (FeeGasMeter.ConsumeGas B g c.1 c.2).meter cs

/-- The sum of the amounts of the calls whose purpose is `p`. -/
def purposeSum (p : String) (cs : List (Gas × String)) : Nat :=
  ((cs.filter (fun c => c.2 = p)).map (fun c => c.1)).sum

/-- The number of the calls whose purpose is `p`. -/
def purposeCount (p : String) (cs : List (Gas × String)) : Nat :=
  (cs.filter (fun c => c.2 = p)).length

/-- A call of one of the two gas-moving methods of the meter contract. -/
inductive GasCall where
  | consume (amount : Gas) (descriptor : String)
  | refund (amount : Gas) (descriptor : String)
  deriving DecidableEq, Repr

/-- The call made on the base meter itself. -/
def GasCall.onBase (B : GasMeter σ) (s : σ) : GasCall → σ × Option Panic
  | GasCall.consume a d => B.ConsumeGas s a d
  | GasCall.refund a d => B.RefundGas s a d

/-- The call made on the wrapper. -/
def GasCall.onWrapper (B : GasMeter σ) (g : FeeGasMeter L σ) :
    GasCall → Outcome (FeeGasMeter L σ)
  | GasCall.consume a d => FeeGasMeter.ConsumeGas B g a d
  | GasCall.refund a d => FeeGasMeter.RefundGas B g a d

/-- A base meter that only records the calls it receives, in order. -/
def traceMeter : GasMeter (List GasCall) where
  GasConsumed _ := 0
  GasConsumedToLimit _ := 0
  Limit _ := 0
  RefundGas s amount descriptor := (s ++ [GasCall.refund amount descriptor], none)
  ConsumeGas s amount descriptor := (s ++ [GasCall.consume amount descriptor], none)
  IsPastLimit _ := false
  IsOutOfGas _ := false

/-- A sequence of calls applied to the base meter directly: the final state and,
call by call, the panic raised (the caller recovers and goes on). -/
def runBase (B : GasMeter σ) (s : σ) : List GasCall → σ × List (Option Panic)
  | [] => (s, [])
  | c :: cs =>
    let r := c.onBase B s
    let rest := runBase B r.1 cs
    (rest.1, r.2 :: rest.2)

/-- The same sequence applied to the wrapper. -/
def runWrapper (B : GasMeter σ) (g : FeeGasMeter L σ) :
    List GasCall → FeeGasMeter L σ × List (Option Panic)
  | [] => (g, [])
  | c :: cs =>
    let r := c.onWrapper B g
    let rest := runWrapper B r.meter cs
    (rest.1, r.panic :: rest.2)

/-- A call of one of the two fee-recording methods. -/
inductive FeeCall where
  | consumeFee (amount : Coin) (msgType : String)
  | feeWanted (amount : Coin) (msgType : String)
  deriving DecidableEq, Repr

/-- The fee call made on the meter. -/
def FeeCall.apply (g : FeeGasMeter L σ) : FeeCall → Outcome (FeeGasMeter L σ)
  | FeeCall.consumeFee a t => FeeGasMeter.ConsumeFee g a t
  | FeeCall.feeWanted a t => FeeGasMeter.FeeWanted g a t

/-- A sequence of fee calls made one after the other: a panic ends the
sequence, as it does for consecutive Go statements. The result is the meter as
the sequence leaves it and the panic that ended it, if any. -/
def runFees (g : FeeGasMeter L σ) : List FeeCall → FeeGasMeter L σ × Option Panic
  | [] => (g, none)
  | c :: cs =>
    match (c.apply g).panic with
    | some e => ((c.apply g).meter, some e)
    | none => runFees (c.apply g).meter cs

/-- The coin named in a fee call. -/
def FeeCall.coin : FeeCall → Coin
  | FeeCall.consumeFee a _ => a
  | FeeCall.feeWanted a _ => a


/-- The amounts (a nil amount read as 0) passed to ConsumeFee for the message
type `t`, in call order. -/
def usedAmounts (t : String) (cs : List FeeCall) : List Int :=
  cs.filterMap (fun c =>
    match c with
    | FeeCall.consumeFee a t' => if t' = t then some (a.Amount.getD 0) else none
    | FeeCall.feeWanted _ _ => none)

/-- The amounts (a nil amount read as 0) passed to FeeWanted for the message
type `t`, in call order. -/
def wantedAmounts (t : String) (cs : List FeeCall) : List Int :=
  cs.filterMap (fun c =>
    match c with
    | FeeCall.consumeFee _ _ => none
    | FeeCall.feeWanted a t' => if t' = t then some (a.Amount.getD 0) else none)

/-- A ledger entry after the amounts have been added to it: untouched when
there are none, otherwise the entry's denomination with its amount plus their
sum. -/
def accumulated (entry : Option Coin) (amounts : List Int) : Option Coin :=
  match amounts with
  | [] => entry
  | _ :: _ =>
    some ⟨(entry.getD Coin.zeroValue).Denom,
      some ((entry.getD Coin.zeroValue).Amount.getD 0 + amounts.sum)⟩

/-! ## Rendering, operations and reconciliation -/

/-- Method `String`: the format string of the source with the two `%d` verbs
replaced by the decimal renderings of the base meter's limit and gas
consumed. -/
def FeeGasMeter.String (B : GasMeter σ) (g : FeeGasMeter L σ) : String :=
  "tracingGasMeter:\n  limit: " ++ Nat.repr (B.Limit g.base)
    ++ "\n  consumed: " ++ Nat.repr (B.GasConsumed g.base)

/-- The queries of the meter: each returns a value and writes nothing. -/
inductive Query where
  | GasConsumed
  | GasConsumedToLimit
  | Limit
  | IsPastLimit
  | IsOutOfGas
  | Render

/-- A call of any method of the meter (`Query.Render` is the method `String`). -/
inductive MeterOp where
  | ConsumeGas (amount : Gas) (descriptor : String)
  | RefundGas (amount : Gas) (descriptor : String)
  | ConsumeFee (amount : Coin) (msgType : String)
  | FeeWanted (amount : Coin) (msgType : String)
  | query (q : Query)

/-- The effect of a method call on the meter. -/
def MeterOp.apply (B : GasMeter σ) (g : FeeGasMeter L σ) :
    MeterOp → Outcome (FeeGasMeter L σ)
  | MeterOp.ConsumeGas a d => FeeGasMeter.ConsumeGas B g a d
  | MeterOp.RefundGas a d => FeeGasMeter.RefundGas B g a d
  | MeterOp.ConsumeFee a t => FeeGasMeter.ConsumeFee g a t
  | MeterOp.FeeWanted a t => FeeGasMeter.FeeWanted g a t
  | MeterOp.query _ => ⟨g, [], none⟩

/-- The amount of the coin a call passes (a nil amount read as 0); 0 for a call
that passes no coin. -/
def MeterOp.coinAmount : MeterOp → Int
  | MeterOp.ConsumeFee a _ => a.Amount.getD 0
  | MeterOp.FeeWanted a _ => a.Amount.getD 0
  | _ => 0

/-- The amount a ledger stores for a message type, an absent entry (and a nil
amount) counting as zero. -/
def ledgerAmount (m : GoMap Coin) (t : String) : Int :=
  (m.get Coin.zeroValue t).Amount.getD 0

/-- The result of reconciling one message type. -/
structure Reconciled where
  wanted : Int
  used : Int
  delta : Int
  deriving DecidableEq, Repr

/-- Modelled from the spec: the reconciliation step (§4.3; no code for it is
under src/). "Given the final state of `feesWanted` and `usedFees` for a
transaction, produce, for every message type present in either map, a triple
(wanted amount, used amount, delta = used − wanted)"; "message types present
in only one map are treated as having zero in the other". A message type in
neither map has no triple. -/
def reconcile (feesWanted usedFees : GoMap Coin) (t : String) : Option Reconciled :=
  match feesWanted t, usedFees t with
  | none, none => none
  | _, _ =>
    some ⟨ledgerAmount feesWanted t, ledgerAmount usedFees t,
      ledgerAmount usedFees t - ledgerAmount feesWanted t⟩

/-- A meter whose entry calls["p"] holds the largest `uint64`. -/
def maxCallsMeter : FeeGasMeter Unit LimitState :=
  ⟨(), ⟨0, 0⟩, GoMap.set GoMap.empty "p" 7, GoMap.set GoMap.empty "p" (uint64Size - 1),
    GoMap.empty, GoMap.empty⟩

/-- A meter whose feesWanted ledger holds 15 stake for "MsgUpdate" and whose
usedFees ledger is empty. -/
def wantedOnlyMeter : FeeGasMeter Unit LimitState :=
  ⟨(), ⟨0, 0⟩, GoMap.empty, GoMap.empty, GoMap.empty,
    GoMap.set GoMap.empty "MsgUpdate" ⟨"stake", some 15⟩⟩

/-! ## Runs of arbitrary operations -/

/-- A sequence of method calls made by a caller that recovers from each panic
and goes on: the meter after the last call. -/
def runOps (B : GasMeter σ) (g : FeeGasMeter L σ) : List MeterOp → FeeGasMeter L σ
  | [] => g
  | op :: ops => runOps B (op.apply B g).meter ops

/-- The descriptors of the ConsumeGas calls of a sequence, in call order. -/
def consumedDescriptors (ops : List MeterOp) : List String :=
  ops.filterMap (fun op =>
    match op with
    | MeterOp.ConsumeGas _ d => some d
    | _ => none)

end Antewrapper

/-!
# Test helpers of `x/attribute/client/cli/cli_test.go`

`toWritten` (the names and values of the generated attributes) and
`attrSorter.Less` (the order the pagination tests sort by). A Go `int` is an
`Int`; a panic with a string value is `Except.error` of that string; a
`[]byte` is a list of byte values.
-/

namespace AttributeCli

/-- The string `toWritten` panics with. -/
def toWrittenPanic : String :=
  "cannot convert negative numbers or numbers larger than 999 to written string"

/-- The literal cases of the `switch i` of `toWritten`; `none` is the `default`
case. -/
def baseWord (i : Int) : Option String :=
  if i = 0 then some "zero"
  else if i = 1 then some "one"
  else if i = 2 then some "two"
  else if i = 3 then some "three"
  else if i = 4 then some "four"
  else if i = 5 then some "five"
  else if i = 6 then some "six"
  else if i = 7 then some "seven"
  else if i = 8 then some "eight"
  else if i = 9 then some "nine"
  else if i = 10 then some "ten"
  else if i = 11 then some "eleven"
  else if i = 12 then some "twelve"
  else if i = 13 then some "thirteen"
  else if i = 14 then some "fourteen"
  else if i = 15 then some "fifteen"
  else if i = 16 then some "sixteen"
  else if i = 17 then some "seventeen"
  else if i = 18 then some "eighteen"
  else if i = 19 then some "nineteen"
  else if i = 20 then some "twenty"
  else if i = 30 then some "thirty"
  else if i = 40 then some "forty"
  else if i = 50 then some "fifty"
  else if i = 60 then some "sixty"
  else if i = 70 then some "seventy"
  else if i = 80 then some "eighty"
  else if i = 90 then some "ninety"
  else none

/-- The call `fmt.Sprintf("%d", r)` for an `int`: its decimal rendering. -/
def fmtD (r : Int) : String := toString r

set_option linter.unusedVariables false in
/-- The function `toWritten`. Where the division and the remainders are
evaluated, `i` is not negative, so Go's truncating `/` and `%` agree with the
ones used here. -/
def toWritten (i : Int) : Except String String :=
  if hr : i < 0 ∨ i > 999 then Except.error toWrittenPanic
  else
    match hb : baseWord i with
    | some w => Except.ok w
    | none =>
      if hlt : i < 100 then
        let r := i % 10
        match toWritten (i - r) with
        | Except.error e => Except.error e
        | Except.ok l => if r = 0 then Except.ok l else Except.ok (l ++ fmtD r)
      else
        let r := i % 100
        match toWritten (i / 100) with
        | Except.error e => Except.error e
        | Except.ok l0 =>
          if r = 0 then Except.ok (l0 ++ "hun") else Except.ok (l0 ++ "hun" ++ fmtD r)
termination_by i.toNat
decreasing_by
  all_goals simp_wf
  · have h0 : 0 ≤ i := by omega
    have hpos : 0 < i % 10 := by
      interval_cases i <;> simp [baseWord] at hb ⊢
    omega
  · omega

/-- The attribute name `fmt.Sprintf("example.attribute.%s", toWritten(i))` that
`SetupSuite` gives the i-th attribute of account 3. -/
def attributeName (i : Int) : Except String String :=
  match toWritten i with
  | Except.error e => Except.error e
  | Except.ok w => Except.ok ("example.attribute." ++ w)

/-- The number of attributes `SetupSuite` generates per account
(`s.accAttrCount = 500`). -/
def accAttrCount : Nat := 500

/-- Whether the result of `toWritten` is a string whose last character is '7'. -/
def endsIn7 (r : Except String String) : Bool :=
  match r with
  | Except.ok s => decide (s.data.getLast? = some '7')
  | Except.error _ => false

/-- The value of `toWritten` on 0..999 without the recursion: the recursive
calls are replaced by the literal cases they reach. -/
def toWrittenClosed (i : Int) : String :=
  match baseWord i with
  | some w => w
  | none =>
    if i < 100 then (baseWord (i - i % 10)).getD "" ++ fmtD (i % 10)
    else if i % 100 = 0 then (baseWord (i / 100)).getD "" ++ "hun"
    else (baseWord (i / 100)).getD "" ++ "hun" ++ fmtD (i % 100)

/-- The number written by a list of decimal digit characters. -/
def digitsValue (ds : List Char) : Nat :=
  ds.foldl (fun acc c => acc * 10 + (c.toNat - 48)) 0

/-- The number below 91 whose literal case is the given word (0 if none). -/
def baseValue (w : List Char) : Nat :=
  ((List.range 91).find? (fun v => baseWord (v : Nat) = some (String.mk w))).getD 0

/-- Reads a number back from its written form: trailing digits, an optional
"hun" before them, and a literal word in front. -/
def decode (s : String) : Nat :=
  let rev := s.data.reverse
  let r := digitsValue (rev.takeWhile Char.isDigit).reverse
  match rev.dropWhile Char.isDigit with
  | 'n' :: 'u' :: 'h' :: u => baseValue u.reverse * 100 + r
  | rest => baseValue rest.reverse + r

/-- The fields of `attributetypes.Attribute` that `Less` reads. `AttributeType`
is an `int32` enumeration. -/
structure Attribute where
  Name : String
  Value : List Nat
  AttributeType : Int
  Address : String
  deriving DecidableEq, Repr

/-- The type `attrSorter`, a slice of attributes. -/
abbrev attrSorter := List Attribute

/-- The inner loop of `Less`: the first byte of `vj` that differs from `vbi`
decides; `none` when the loop ends without a `return`. -/
def lessInner (vbi : Nat) : List Nat → Option Bool
  | [] => none
  | vbj :: rest => if vbi ≠ vbj then some (decide (vbi < vbj)) else lessInner vbi rest

/-- The two nested loops of `Less` over the bytes of the two values; `none` when
they end without a `return`. -/
def lessLoops : List Nat → List Nat → Option Bool
  | [], _ => none
  | vbi :: rest, vj =>
    match lessInner vbi vj with
    | some b => some b
    | none => lessLoops rest vj

/-- The body of `Less` on the two elements `a[i]` and `a[j]`. Go compares
strings byte by byte, which for UTF-8 strings is the order of `String`. -/
def lessAttr (x y : Attribute) : Bool :=
  if x.Name ≠ y.Name then decide (x.Name < y.Name)
  else if x.AttributeType ≠ y.AttributeType then decide (x.AttributeType < y.AttributeType)
  else
    match lessLoops x.Value y.Value with
    | some b => b
    | none => decide (x.Address < y.Address)

/-- Method `attrSorter.Less`; `none` is the runtime panic of an index out of
range. -/
def attrSorter.Less (a : attrSorter) (i j : Nat) : Option Bool :=
  match a[i]?, a[j]? with
  | some x, some y => some (lessAttr x y)
  | _, _ => none

/-- The order the doc comment of `attrSorter` announces ("Sorts by .Name then
.AttributeType then .Value, then .Address"): lexicographic on the four fields,
the values compared as byte strings. -/
def lexLess (x y : Attribute) : Bool :=
  if x.Name ≠ y.Name then decide (x.Name < y.Name)
  else if x.AttributeType ≠ y.AttributeType then decide (x.AttributeType < y.AttributeType)
  else if x.Value ≠ y.Value then decide (x.Value < y.Value)
  else decide (x.Address < y.Address)

/-- The bytes of an ASCII string, as `[]byte(s)` gives them. -/
def bytesOf (s : String) : List Nat := s.data.map Char.toNat

/-- The attribute `SetupSuite` gives account 4 for the value `w`: the shared
name "example.attribute.overload", type `AttributeType_String` (3) and the
account's address. -/
def overloadAttr (w : String) : Attribute :=
  ⟨"example.attribute.overload", bytesOf w, 3, "account4"⟩

end AttributeCli

namespace Antewrapper

variable {L σ : Type}

/-! # Theorems -/

/-! ## Lemmas on maps -/

theorem GoMap.set_same {V : Type} (m : GoMap V) (k : String) (v : V) :
    m.set k v k = some v := by
  simp [GoMap.set]

theorem GoMap.set_other {V : Type} (m : GoMap V) (k k' : String) (v : V) (h : k' ≠ k) :
    m.set k v k' = m k' := by
  simp [GoMap.set, h]

theorem GoMap.get_set_same {V : Type} (z : V) (m : GoMap V) (k : String) (v : V) :
    (m.set k v).get z k = v := by
  simp [GoMap.get, GoMap.set]

theorem GoMap.get_set_other {V : Type} (z : V) (m : GoMap V) (k k' : String) (v : V)
    (h : k' ≠ k) : (m.set k v).get z k' = m.get z k' := by
  simp [GoMap.get, GoMap.set, h]

theorem GoMap.get_empty {V : Type} (z : V) (k : String) :
    (GoMap.empty : GoMap V).get z k = z := by
  simp [GoMap.get, GoMap.empty]

/-! ## ConsumeGas: the purpose-usage table -/

/-- C1, as stated, fails: on a meter whose entry used["p"] holds 2^64 - 1,
ConsumeGas(1, "p") leaves used["p"] = 0, which is not the previous value
plus the amount (2^64). -/
theorem ConsumeGas_used_not_plus :
    (FeeGasMeter.ConsumeGas limitMeter fullMeter 1 "p").meter.used "p" = some 0 ∧
    fullMeter.used.get 0 "p" + 1 = 18446744073709551616 ∧
    (FeeGasMeter.ConsumeGas limitMeter fullMeter 1 "p").meter.used.get 0 "p"
      ≠ fullMeter.used.get 0 "p" + 1 := by
  simp [FeeGasMeter.ConsumeGas, fullMeter, GoMap.get, GoMap.set, GoMap.empty, uint64Size]

/-- C1, amended: for every base meter, meter state, amount and purpose label
(the empty label included), ConsumeGas(amount, purpose) sets used[purpose] to
its previous value (0 when absent) plus amount, reduced modulo 2^64, and
calls[purpose] to its previous value (0 when absent) plus 1, reduced modulo
2^64; both entries exist afterwards. -/
theorem ConsumeGas_table (B : GasMeter σ) (g : FeeGasMeter L σ) (amount : Gas)
    (purpose : String) :
    (FeeGasMeter.ConsumeGas B g amount purpose).meter.used purpose
      = some ((g.used.get 0 purpose + amount) % 2 ^ 64) ∧
    (FeeGasMeter.ConsumeGas B g amount purpose).meter.calls purpose
      = some ((g.calls.get 0 purpose + 1) % 2 ^ 64) := by
  simp [FeeGasMeter.ConsumeGas, GoMap.set, uint64Size]

/-- C2: when the base meter signals out-of-gas for a ConsumeGas call, the
wrapper propagates that panic, and the purpose-usage table it leaves behind
is the one the same call leaves on a meter whose base does not fail: amount
has been added to used[purpose] and 1 to calls[purpose] (in uint64
arithmetic) before the failure. -/
theorem ConsumeGas_records_before_out_of_gas {σ' : Type} (B : GasMeter σ)
    (B' : GasMeter σ') (g : FeeGasMeter L σ) (g' : FeeGasMeter L σ') (amount : Gas)
    (purpose d : String)
    (hfail : (B.ConsumeGas g.base amount purpose).2 = some (Panic.ErrorOutOfGas d))
    (hok : (B'.ConsumeGas g'.base amount purpose).2 = none)
    (hused : g'.used = g.used) (hcalls : g'.calls = g.calls) :
    (FeeGasMeter.ConsumeGas B g amount purpose).panic = some (Panic.ErrorOutOfGas d) ∧
    (FeeGasMeter.ConsumeGas B' g' amount purpose).panic = none ∧
    (FeeGasMeter.ConsumeGas B g amount purpose).meter.used
      = (FeeGasMeter.ConsumeGas B' g' amount purpose).meter.used ∧
    (FeeGasMeter.ConsumeGas B g amount purpose).meter.calls
      = (FeeGasMeter.ConsumeGas B' g' amount purpose).meter.calls ∧
    (FeeGasMeter.ConsumeGas B g amount purpose).meter.used purpose
      = some ((g.used.get 0 purpose + amount) % 2 ^ 64) ∧
    (FeeGasMeter.ConsumeGas B g amount purpose).meter.calls purpose
      = some ((g.calls.get 0 purpose + 1) % 2 ^ 64) := by
  refine ⟨hfail, hok, ?_, ?_, ?_, ?_⟩
  · simp [FeeGasMeter.ConsumeGas, hused]
  · simp [FeeGasMeter.ConsumeGas, hcalls]
  · simp [FeeGasMeter.ConsumeGas, GoMap.set, uint64Size]
  · simp [FeeGasMeter.ConsumeGas, GoMap.set, uint64Size]

/-- Witness of C2: ConsumeGas(200, "hash") on a fresh meter of limit 100 fails
with out-of-gas, on a fresh meter of limit 1000 it does not, and both leave
the same table, with used["hash"] = 200 and calls["hash"] = 1. -/
theorem ConsumeGas_records_before_out_of_gas_witness :
    (FeeGasMeter.ConsumeGas limitMeter (freshMeter 100) 200 "hash").panic
      = some (Panic.ErrorOutOfGas "hash") ∧
    (FeeGasMeter.ConsumeGas limitMeter (freshMeter 1000) 200 "hash").panic = none ∧
    (FeeGasMeter.ConsumeGas limitMeter (freshMeter 100) 200 "hash").meter.used
      = (FeeGasMeter.ConsumeGas limitMeter (freshMeter 1000) 200 "hash").meter.used ∧
    (FeeGasMeter.ConsumeGas limitMeter (freshMeter 100) 200 "hash").meter.calls
      = (FeeGasMeter.ConsumeGas limitMeter (freshMeter 1000) 200 "hash").meter.calls ∧
    (FeeGasMeter.ConsumeGas limitMeter (freshMeter 100) 200 "hash").meter.used "hash"
      = some (((freshMeter 100).used.get 0 "hash" + 200) % 2 ^ 64) ∧
    (FeeGasMeter.ConsumeGas limitMeter (freshMeter 100) 200 "hash").meter.calls "hash"
      = some (((freshMeter 100).calls.get 0 "hash" + 1) % 2 ^ 64) :=
  ConsumeGas_records_before_out_of_gas limitMeter limitMeter (freshMeter 100)
    (freshMeter 1000) 200 "hash" "hash"
    (by simp [limitMeter, freshMeter, NewFeeTracingMeterWrapper, uint64Size])
    (by simp [limitMeter, freshMeter, NewFeeTracingMeterWrapper, uint64Size])
    rfl rfl


/-! ## Sequences of ConsumeGas calls -/

theorem purposeSum_cons (p : String) (c : Gas × String) (cs : List (Gas × String)) :
    purposeSum p (c :: cs)
      = if c.2 = p then c.1 + purposeSum p cs else purposeSum p cs := by
  unfold purposeSum
  by_cases h : c.2 = p <;> simp [List.filter_cons, h]

theorem purposeCount_cons (p : String) (c : Gas × String) (cs : List (Gas × String)) :
    purposeCount p (c :: cs)
      = if c.2 = p then purposeCount p cs + 1 else purposeCount p cs := by
  unfold purposeCount
  by_cases h : c.2 = p <;> simp [List.filter_cons, h]

theorem ConsumeGas_used_get (B : GasMeter σ) (g : FeeGasMeter L σ) (a : Gas)
    (d p : String) :
    (FeeGasMeter.ConsumeGas B g a d).meter.used.get 0 p
      = if d = p then (g.used.get 0 p + a) % uint64Size else g.used.get 0 p := by
  by_cases h : d = p
  · subst h
    simp [FeeGasMeter.ConsumeGas, GoMap.get, GoMap.set]
  · have h' : p ≠ d := fun e => h e.symm
    simp [FeeGasMeter.ConsumeGas, GoMap.get, GoMap.set, h, h']

theorem ConsumeGas_calls_get (B : GasMeter σ) (g : FeeGasMeter L σ) (a : Gas)
    (d p : String) :
    (FeeGasMeter.ConsumeGas B g a d).meter.calls.get 0 p
      = if d = p then (g.calls.get 0 p + 1) % uint64Size else g.calls.get 0 p := by
  by_cases h : d = p
  · subst h
    simp [FeeGasMeter.ConsumeGas, GoMap.get, GoMap.set]
  · have h' : p ≠ d := fun e => h e.symm
    simp [FeeGasMeter.ConsumeGas, GoMap.get, GoMap.set, h, h']

theorem uint64Size_pos : 0 < uint64Size := by
  simp [uint64Size]

/-- The used entry after a sequence of calls, from any state whose entry is a
`uint64`. -/
theorem consumeAll_used (B : GasMeter σ) (cs : List (Gas × String)) (p : String) :
    ∀ g : FeeGasMeter L σ, g.used.get 0 p < uint64Size →
      (consumeAll B g cs).used.get 0 p
        = (g.used.get 0 p + purposeSum p cs) % uint64Size := by
  induction cs with
  | nil =>
    intro g h
    simp [consumeAll, purposeSum, Nat.mod_eq_of_lt h]
  | cons c cs ih =>
    intro g h
    have hlt : (FeeGasMeter.ConsumeGas B g c.1 c.2).meter.used.get 0 p < uint64Size := by
      rw [ConsumeGas_used_get]
      split
      · exact Nat.mod_lt _ uint64Size_pos
      · exact h
    rw [consumeAll, ih _ hlt, ConsumeGas_used_get, purposeSum_cons]
    by_cases hp : c.2 = p
    · simp only [hp, if_true]
      rw [Nat.mod_add_mod, Nat.add_assoc]
    · simp only [hp, if_false]

/-- The calls entry after a sequence of calls, from any state whose entry is a
`uint64`. -/
theorem consumeAll_calls (B : GasMeter σ) (cs : List (Gas × String)) (p : String) :
    ∀ g : FeeGasMeter L σ, g.calls.get 0 p < uint64Size →
      (consumeAll B g cs).calls.get 0 p
        = (g.calls.get 0 p + purposeCount p cs) % uint64Size := by
  induction cs with
  | nil =>
    intro g h
    simp [consumeAll, purposeCount, Nat.mod_eq_of_lt h]
  | cons c cs ih =>
    intro g h
    have hlt : (FeeGasMeter.ConsumeGas B g c.1 c.2).meter.calls.get 0 p < uint64Size := by
      rw [ConsumeGas_calls_get]
      split
      · exact Nat.mod_lt _ uint64Size_pos
      · exact h
    rw [consumeAll, ih _ hlt, ConsumeGas_calls_get, purposeCount_cons]
    by_cases hp : c.2 = p
    · simp only [hp, if_true]
      rw [Nat.mod_add_mod, Nat.add_assoc, Nat.add_comm 1]
    · simp only [hp, if_false]

/-- C3, as stated, fails: two calls ConsumeGas(2^63, "p") on a fresh meter leave
used["p"] = 0, while the sum of the amounts is 2^64. -/
theorem consumeAll_used_not_sum :
    (consumeAll limitMeter (freshMeter 0)
        [(9223372036854775808, "p"), (9223372036854775808, "p")]).used.get 0 "p" = 0 ∧
    purposeSum "p" [(9223372036854775808, "p"), (9223372036854775808, "p")]
      = 18446744073709551616 ∧
    (consumeAll limitMeter (freshMeter 0)
        [(9223372036854775808, "p"), (9223372036854775808, "p")]).used.get 0 "p"
      ≠ purposeSum "p" [(9223372036854775808, "p"), (9223372036854775808, "p")] := by
  simp [consumeAll, FeeGasMeter.ConsumeGas, freshMeter, NewFeeTracingMeterWrapper,
    GoMap.get, GoMap.set, GoMap.empty, uint64Size, purposeSum]

/-- C3, amended: for every base meter (failing or not), every finite sequence of
ConsumeGas(amount_i, purpose_i) calls on a freshly constructed meter and every
purpose p, used[p] equals the sum of amount_i over the calls with
purpose_i = p modulo 2^64, and calls[p] equals the number of such calls modulo
2^64. In scenario A (limit 1,000,000; consume(100, iterate),
consume(50, iterate), consume(200, hash)) the table is iterate = (150, 2) and
hash = (200, 1). -/
theorem consumeAll_fresh_table :
    (∀ (L σ : Type) (B : GasMeter σ) (logger : L) (base : σ)
        (cs : List (Gas × String)) (p : String),
      (consumeAll B (NewFeeTracingMeterWrapper logger base) cs).used.get 0 p
        = purposeSum p cs % 2 ^ 64 ∧
      (consumeAll B (NewFeeTracingMeterWrapper logger base) cs).calls.get 0 p
        = purposeCount p cs % 2 ^ 64) ∧
    (consumeAll limitMeter (freshMeter 1000000)
        [(100, "iterate"), (50, "iterate"), (200, "hash")]).used "iterate" = some 150 ∧
    (consumeAll limitMeter (freshMeter 1000000)
        [(100, "iterate"), (50, "iterate"), (200, "hash")]).calls "iterate" = some 2 ∧
    (consumeAll limitMeter (freshMeter 1000000)
        [(100, "iterate"), (50, "iterate"), (200, "hash")]).used "hash" = some 200 ∧
    (consumeAll limitMeter (freshMeter 1000000)
        [(100, "iterate"), (50, "iterate"), (200, "hash")]).calls "hash" = some 1 := by
  refine ⟨?_, ?_, ?_, ?_, ?_⟩
  · intro L σ B logger base cs p
    have hu : (NewFeeTracingMeterWrapper logger base).used.get 0 p = 0 := by
      simp [NewFeeTracingMeterWrapper, GoMap.get_empty]
    have hc : (NewFeeTracingMeterWrapper logger base).calls.get 0 p = 0 := by
      simp [NewFeeTracingMeterWrapper, GoMap.get_empty]
    constructor
    · have := consumeAll_used B cs p (NewFeeTracingMeterWrapper logger base)
        (by rw [hu]; exact uint64Size_pos)
      rw [this, hu, Nat.zero_add]; rfl
    · have := consumeAll_calls B cs p (NewFeeTracingMeterWrapper logger base)
        (by rw [hc]; exact uint64Size_pos)
      rw [this, hc, Nat.zero_add]; rfl
  all_goals
    simp [consumeAll, FeeGasMeter.ConsumeGas, freshMeter, NewFeeTracingMeterWrapper,
      GoMap.get, GoMap.set, GoMap.empty, uint64Size]


/-! ## The fee ledgers -/

theorem Coin.Add_ok (d : String) (x y : Int) (h : (x + y).natAbs < 2 ^ 256) :
    Coin.Add ⟨d, some x⟩ ⟨d, some y⟩ = Except.ok ⟨d, some (x + y)⟩ := by
  have h' : ¬ 2 ^ maxBitLen ≤ (x + y).natAbs := Nat.not_le.mpr h
  simp only [Coin.Add, intAdd, ne_eq, not_true_eq_false, if_false, if_neg h']

theorem ConsumeFee_error (g : FeeGasMeter L σ) (amount : Coin) (t : String) (e : Panic)
    (h : Coin.Add (g.usedFees.get Coin.zeroValue t) amount = Except.error e) :
    FeeGasMeter.ConsumeFee g amount t = ⟨g, [], some e⟩ := by
  simp only [FeeGasMeter.ConsumeFee, h]

theorem ConsumeFee_ok (g : FeeGasMeter L σ) (amount : Coin) (t : String) (c : Coin)
    (h : Coin.Add (g.usedFees.get Coin.zeroValue t) amount = Except.ok c) :
    FeeGasMeter.ConsumeFee g amount t
      = ⟨⟨g.log, g.base, g.used, g.calls, g.usedFees.set t c, g.feesWanted⟩, [], none⟩ := by
  simp only [FeeGasMeter.ConsumeFee, h]

theorem FeeWanted_error (g : FeeGasMeter L σ) (amount : Coin) (t : String) (e : Panic)
    (h : Coin.Add (g.feesWanted.get Coin.zeroValue t) amount = Except.error e) :
    FeeGasMeter.FeeWanted g amount t = ⟨g, [], some e⟩ := by
  simp only [FeeGasMeter.FeeWanted, h]

theorem FeeWanted_ok (g : FeeGasMeter L σ) (amount : Coin) (t : String) (c : Coin)
    (h : Coin.Add (g.feesWanted.get Coin.zeroValue t) amount = Except.ok c) :
    FeeGasMeter.FeeWanted g amount t
      = ⟨⟨g.log, g.base, g.used, g.calls, g.usedFees, g.feesWanted.set t c⟩, [], none⟩ := by
  simp only [FeeGasMeter.FeeWanted, h]

theorem GoMap.get_of_some {V : Type} (z : V) (m : GoMap V) (k : String) (v : V)
    (h : m k = some v) : m.get z k = v := by
  simp [GoMap.get, h]

theorem Coin.Add_denom (c a : Coin) (h : c.Denom ≠ a.Denom) :
    Coin.Add c a = Except.error (Panic.invalidCoinDenominations c.Denom a.Denom) := by
  simp [Coin.Add, h]

/-- The zero-value coin, which a map read yields for an absent key, cannot be
added to: a coin of a non-empty denomination is refused for the mismatch, and
one of the empty denomination dereferences the nil amount. -/
theorem Coin.Add_zeroValue (a : Coin) : ∃ e, Coin.Add Coin.zeroValue a = Except.error e := by
  by_cases h : Coin.zeroValue.Denom ≠ a.Denom
  · exact ⟨_, Coin.Add_denom _ _ h⟩
  · have h' : Coin.zeroValue.Denom = a.Denom := not_not.mp h
    refine ⟨Panic.nilPointerDereference, ?_⟩
    simp only [Coin.Add, h', ne_eq, not_true_eq_false, if_false]
    rfl

/-- On a meter with no entry for the message type, ConsumeFee panics whatever
the coin and leaves the meter as it was. -/
theorem ConsumeFee_absent (g : FeeGasMeter L σ) (amount : Coin) (t : String)
    (h : g.usedFees t = none) :
    (FeeGasMeter.ConsumeFee g amount t).panic ≠ none ∧
    (FeeGasMeter.ConsumeFee g amount t).meter = g := by
  obtain ⟨e, he⟩ := Coin.Add_zeroValue amount
  have hget : g.usedFees.get Coin.zeroValue t = Coin.zeroValue := by simp [GoMap.get, h]
  rw [ConsumeFee_error g amount t e (by rw [hget]; exact he)]
  exact ⟨by simp, rfl⟩

/-- On a meter with no entry for the message type, FeeWanted panics whatever
the coin and leaves the meter as it was. -/
theorem FeeWanted_absent (g : FeeGasMeter L σ) (amount : Coin) (t : String)
    (h : g.feesWanted t = none) :
    (FeeGasMeter.FeeWanted g amount t).panic ≠ none ∧
    (FeeGasMeter.FeeWanted g amount t).meter = g := by
  obtain ⟨e, he⟩ := Coin.Add_zeroValue amount
  have hget : g.feesWanted.get Coin.zeroValue t = Coin.zeroValue := by simp [GoMap.get, h]
  rw [FeeWanted_error g amount t e (by rw [hget]; exact he)]
  exact ⟨by simp, rfl⟩

/-- C4, at the failing input: on a freshly constructed meter, ConsumeFee(10 stake,
"MsgAdd") panics with the denomination mismatch between the zero-value coin
read from the map (empty denomination) and "stake", and usedFees["MsgAdd"]
stays absent; FeeWanted does the same on feesWanted. -/
theorem ConsumeFee_fresh_panics :
    (FeeGasMeter.ConsumeFee (freshMeter 1000000) ⟨"stake", some 10⟩ "MsgAdd").panic
      = some (Panic.invalidCoinDenominations "" "stake") ∧
    (FeeGasMeter.ConsumeFee (freshMeter 1000000) ⟨"stake", some 10⟩ "MsgAdd").meter.usedFees
      "MsgAdd" = none ∧
    (FeeGasMeter.FeeWanted (freshMeter 1000000) ⟨"stake", some 10⟩ "MsgAdd").panic
      = some (Panic.invalidCoinDenominations "" "stake") ∧
    (FeeGasMeter.FeeWanted (freshMeter 1000000) ⟨"stake", some 10⟩ "MsgAdd").meter.feesWanted
      "MsgAdd" = none := by
  simp [FeeGasMeter.ConsumeFee, FeeGasMeter.FeeWanted, freshMeter, NewFeeTracingMeterWrapper,
    GoMap.get, GoMap.empty, Coin.zeroValue, Coin.Add]

/-- The addition on a ledger that holds an entry (a state built by hand: no run
from the constructor stores one, see `runOps_ledgers_empty`): when
usedFees[msgType] holds a coin of denomination d and amount x, and the sum x + y needs at most 256 bits, ConsumeFee(y d, msgType)
completes without panic and leaves usedFees[msgType] equal to the coin
(x + y) d: the call accumulates and does not overwrite. FeeWanted has the same
contract on feesWanted[msgType]. -/
theorem ConsumeFee_accumulates (g : FeeGasMeter L σ) (msgType d : String) (x y : Int)
    (hfit : (x + y).natAbs < 2 ^ 256) :
    (g.usedFees msgType = some ⟨d, some x⟩ →
      (FeeGasMeter.ConsumeFee g ⟨d, some y⟩ msgType).panic = none ∧
      (FeeGasMeter.ConsumeFee g ⟨d, some y⟩ msgType).meter.usedFees msgType
        = some ⟨d, some (x + y)⟩) ∧
    (g.feesWanted msgType = some ⟨d, some x⟩ →
      (FeeGasMeter.FeeWanted g ⟨d, some y⟩ msgType).panic = none ∧
      (FeeGasMeter.FeeWanted g ⟨d, some y⟩ msgType).meter.feesWanted msgType
        = some ⟨d, some (x + y)⟩) := by
  constructor
  · intro h
    have hadd := Coin.Add_ok d x y hfit
    rw [← GoMap.get_of_some Coin.zeroValue _ _ _ h] at hadd
    rw [ConsumeFee_ok g _ _ _ hadd]
    exact ⟨rfl, GoMap.set_same _ _ _⟩
  · intro h
    have hadd := Coin.Add_ok d x y hfit
    rw [← GoMap.get_of_some Coin.zeroValue _ _ _ h] at hadd
    rw [FeeWanted_ok g _ _ _ hadd]
    exact ⟨rfl, GoMap.set_same _ _ _⟩

/-- C6, at the failing input (scenario B): on a freshly constructed meter the
first call FeeWanted(10 stake, "MsgAdd") panics with the denomination mismatch
between the zero-value coin and "stake", which ends the sequence with both
ledgers still empty for "MsgAdd" (not wanted = 20 stake, used = 20 stake);
ConsumeFee(20 stake, "MsgAdd") on the fresh meter panics in the same way. -/
theorem runFees_scenario_B_panics :
    (runFees (freshMeter 1000000)
        [FeeCall.feeWanted ⟨"stake", some 10⟩ "MsgAdd",
         FeeCall.feeWanted ⟨"stake", some 10⟩ "MsgAdd",
         FeeCall.consumeFee ⟨"stake", some 20⟩ "MsgAdd"]).2
      = some (Panic.invalidCoinDenominations "" "stake") ∧
    (runFees (freshMeter 1000000)
        [FeeCall.feeWanted ⟨"stake", some 10⟩ "MsgAdd",
         FeeCall.feeWanted ⟨"stake", some 10⟩ "MsgAdd",
         FeeCall.consumeFee ⟨"stake", some 20⟩ "MsgAdd"]).1.feesWanted "MsgAdd" = none ∧
    (runFees (freshMeter 1000000)
        [FeeCall.feeWanted ⟨"stake", some 10⟩ "MsgAdd",
         FeeCall.feeWanted ⟨"stake", some 10⟩ "MsgAdd",
         FeeCall.consumeFee ⟨"stake", some 20⟩ "MsgAdd"]).1.usedFees "MsgAdd" = none ∧
    (FeeGasMeter.ConsumeFee (freshMeter 1000000) ⟨"stake", some 20⟩ "MsgAdd").panic
      = some (Panic.invalidCoinDenominations "" "stake") ∧
    (FeeGasMeter.ConsumeFee (freshMeter 1000000) ⟨"stake", some 20⟩ "MsgAdd").meter.usedFees
      "MsgAdd" = none := by
  simp [runFees, FeeCall.apply, FeeGasMeter.ConsumeFee, FeeGasMeter.FeeWanted, freshMeter,
    NewFeeTracingMeterWrapper, GoMap.get, GoMap.empty, Coin.zeroValue, Coin.Add]

/-- C8: when usedFees[msgType] (respectively feesWanted[msgType]) holds a coin of
denomination d, ConsumeFee (respectively FeeWanted) called with a coin of a
different denomination panics with the denomination-mismatch error and leaves
the whole meter, the stored entry included, as it was: nothing is coerced and
no mixed total is stored. -/
theorem ConsumeFee_denom_mismatch_panics (g : FeeGasMeter L σ) (amount c : Coin)
    (msgType : String) (hd : c.Denom ≠ amount.Denom) :
    (g.usedFees msgType = some c →
      (FeeGasMeter.ConsumeFee g amount msgType).panic
        = some (Panic.invalidCoinDenominations c.Denom amount.Denom) ∧
      (FeeGasMeter.ConsumeFee g amount msgType).meter = g ∧
      (FeeGasMeter.ConsumeFee g amount msgType).meter.usedFees msgType = some c) ∧
    (g.feesWanted msgType = some c →
      (FeeGasMeter.FeeWanted g amount msgType).panic
        = some (Panic.invalidCoinDenominations c.Denom amount.Denom) ∧
      (FeeGasMeter.FeeWanted g amount msgType).meter = g ∧
      (FeeGasMeter.FeeWanted g amount msgType).meter.feesWanted msgType = some c) := by
  constructor
  · intro h
    have hadd := Coin.Add_denom c amount hd
    rw [← GoMap.get_of_some Coin.zeroValue _ _ _ h] at hadd
    rw [ConsumeFee_error g _ _ _ hadd, GoMap.get_of_some Coin.zeroValue _ _ _ h]
    exact ⟨rfl, rfl, h⟩
  · intro h
    have hadd := Coin.Add_denom c amount hd
    rw [← GoMap.get_of_some Coin.zeroValue _ _ _ h] at hadd
    rw [FeeWanted_error g _ _ _ hadd, GoMap.get_of_some Coin.zeroValue _ _ _ h]
    exact ⟨rfl, rfl, h⟩

/-- Witness of C8: with 10 stake stored for "MsgAdd", recording 5 nhash panics
and leaves the 10 stake in place, in both ledgers. -/
theorem ConsumeFee_denom_mismatch_panics_witness :
    ((FeeGasMeter.ConsumeFee stakedMeter ⟨"nhash", some 5⟩ "MsgAdd").panic
        = some (Panic.invalidCoinDenominations "stake" "nhash") ∧
      (FeeGasMeter.ConsumeFee stakedMeter ⟨"nhash", some 5⟩ "MsgAdd").meter = stakedMeter ∧
      (FeeGasMeter.ConsumeFee stakedMeter ⟨"nhash", some 5⟩ "MsgAdd").meter.usedFees "MsgAdd"
        = some ⟨"stake", some 10⟩) ∧
    ((FeeGasMeter.FeeWanted stakedMeter ⟨"nhash", some 5⟩ "MsgAdd").panic
        = some (Panic.invalidCoinDenominations "stake" "nhash") ∧
      (FeeGasMeter.FeeWanted stakedMeter ⟨"nhash", some 5⟩ "MsgAdd").meter = stakedMeter ∧
      (FeeGasMeter.FeeWanted stakedMeter ⟨"nhash", some 5⟩ "MsgAdd").meter.feesWanted "MsgAdd"
        = some ⟨"stake", some 10⟩) :=
  ⟨(ConsumeFee_denom_mismatch_panics stakedMeter ⟨"nhash", some 5⟩ ⟨"stake", some 10⟩
      "MsgAdd" (by decide)).1 (by simp [stakedMeter, GoMap.set]),
    (ConsumeFee_denom_mismatch_panics stakedMeter ⟨"nhash", some 5⟩ ⟨"stake", some 10⟩
      "MsgAdd" (by decide)).2 (by simp [stakedMeter, GoMap.set])⟩

/-! ## Pass-through -/

/-- C9: for every base meter, base state, logger and contents of the
purpose-usage maps and fee ledgers, GasConsumed, Limit, GasConsumedToLimit,
IsPastLimit and IsOutOfGas of the wrapper return exactly what the base meter
returns for the same query in its current state. -/
theorem queries_pass_through (B : GasMeter σ) (logger : L) (base : σ)
    (used calls : GoMap Nat) (usedFees feesWanted : GoMap Coin) :
    FeeGasMeter.GasConsumed B ⟨logger, base, used, calls, usedFees, feesWanted⟩
      = B.GasConsumed base ∧
    FeeGasMeter.Limit B ⟨logger, base, used, calls, usedFees, feesWanted⟩ = B.Limit base ∧
    FeeGasMeter.GasConsumedToLimit B ⟨logger, base, used, calls, usedFees, feesWanted⟩
      = B.GasConsumedToLimit base ∧
    FeeGasMeter.IsPastLimit B ⟨logger, base, used, calls, usedFees, feesWanted⟩
      = B.IsPastLimit base ∧
    FeeGasMeter.IsOutOfGas B ⟨logger, base, used, calls, usedFees, feesWanted⟩
      = B.IsOutOfGas base :=
  ⟨rfl, rfl, rfl, rfl, rfl⟩


theorem onWrapper_base (B : GasMeter σ) (g : FeeGasMeter L σ) (c : GasCall) :
    (c.onWrapper B g).meter.base = (c.onBase B g.base).1 ∧
    (c.onWrapper B g).panic = (c.onBase B g.base).2 := by
  cases c <;> exact ⟨rfl, rfl⟩

theorem runWrapper_base (B : GasMeter σ) (cs : List GasCall) :
    ∀ g : FeeGasMeter L σ,
      (runWrapper B g cs).1.base = (runBase B g.base cs).1 ∧
      (runWrapper B g cs).2 = (runBase B g.base cs).2 := by
  induction cs with
  | nil => intro g; exact ⟨rfl, rfl⟩
  | cons c cs ih =>
    intro g
    have h := onWrapper_base B g c
    have ih' := ih (c.onWrapper B g).meter
    rw [h.1] at ih'
    simp only [runWrapper, runBase]
    exact ⟨ih'.1, by rw [h.2, ih'.2]⟩

theorem runBase_traceMeter (cs : List GasCall) :
    ∀ s : List GasCall, (runBase traceMeter s cs).1 = s ++ cs := by
  induction cs with
  | nil => intro s; simp [runBase]
  | cons c cs ih =>
    intro s
    have hstep : (c.onBase traceMeter s).1 = s ++ [c] := by
      cases c <;> rfl
    simp only [runBase]
    rw [ih, hstep, List.append_assoc, List.singleton_append]

/-- C10: for every base meter and every sequence of ConsumeGas and RefundGas
calls, the wrapper leaves the base meter in the state the sequence leaves it
in when applied to the base meter directly, raises call by call exactly the
panics the base meter raises (none of its own), and answers every
pass-through query with the base meter's value; a base meter that records its
calls has received exactly the sequence, each call once with its amount and
descriptor. After consume 100, 50 and 200 under limit 1,000,000 no call has
failed and GasConsumed is 350. -/
theorem runWrapper_refines_base :
    (∀ (L σ : Type) (B : GasMeter σ) (g : FeeGasMeter L σ) (cs : List GasCall),
      (runWrapper B g cs).1.base = (runBase B g.base cs).1 ∧
      (runWrapper B g cs).2 = (runBase B g.base cs).2 ∧
      FeeGasMeter.GasConsumed B (runWrapper B g cs).1
        = B.GasConsumed (runBase B g.base cs).1 ∧
      FeeGasMeter.Limit B (runWrapper B g cs).1 = B.Limit (runBase B g.base cs).1 ∧
      FeeGasMeter.GasConsumedToLimit B (runWrapper B g cs).1
        = B.GasConsumedToLimit (runBase B g.base cs).1 ∧
      FeeGasMeter.IsPastLimit B (runWrapper B g cs).1
        = B.IsPastLimit (runBase B g.base cs).1 ∧
      FeeGasMeter.IsOutOfGas B (runWrapper B g cs).1
        = B.IsOutOfGas (runBase B g.base cs).1) ∧
    (∀ (L : Type) (g : FeeGasMeter L (List GasCall)) (cs : List GasCall),
      (runWrapper traceMeter g cs).1.base = g.base ++ cs) ∧
    (runWrapper limitMeter (freshMeter 1000000)
        [GasCall.consume 100 "iterate", GasCall.consume 50 "iterate",
         GasCall.consume 200 "hash"]).2 = [none, none, none] ∧
    FeeGasMeter.GasConsumed limitMeter
      (runWrapper limitMeter (freshMeter 1000000)
        [GasCall.consume 100 "iterate", GasCall.consume 50 "iterate",
         GasCall.consume 200 "hash"]).1 = 350 := by
  refine ⟨?_, ?_, ?_, ?_⟩
  · intro L σ B g cs
    have h := runWrapper_base B cs g
    refine ⟨h.1, h.2, ?_, ?_, ?_, ?_, ?_⟩ <;>
      simp only [FeeGasMeter.GasConsumed, FeeGasMeter.Limit, FeeGasMeter.GasConsumedToLimit,
        FeeGasMeter.IsPastLimit, FeeGasMeter.IsOutOfGas, h.1]
  · intro L g cs
    rw [(runWrapper_base traceMeter cs g).1, runBase_traceMeter]
  · simp [runWrapper, GasCall.onWrapper, FeeGasMeter.ConsumeGas, limitMeter, freshMeter,
      NewFeeTracingMeterWrapper, uint64Size]
  · simp [runWrapper, GasCall.onWrapper, FeeGasMeter.ConsumeGas, FeeGasMeter.GasConsumed,
      limitMeter, freshMeter, NewFeeTracingMeterWrapper, uint64Size]


/-! ## Sequences of fee recordings -/

theorem Coin.Add_eq_ok (cur a c : Coin) (h : Coin.Add cur a = Except.ok c) :
    ∃ x y, cur.Amount = some x ∧ a.Amount = some y ∧ c = ⟨cur.Denom, some (x + y)⟩ := by
  unfold Coin.Add at h
  split at h
  · cases h
  · cases hx : cur.Amount with
    | none => simp [intAdd, hx] at h
    | some x =>
      cases hy : a.Amount with
      | none => simp [intAdd, hx, hy] at h
      | some y =>
        refine ⟨x, y, rfl, rfl, ?_⟩
        simp only [intAdd, hx, hy] at h
        split at h
        · cases h
        · rename_i s hs
          split at hs
          · cases hs
          · cases hs
            cases h
            rfl

theorem accumulated_nil (e : Option Coin) : accumulated e [] = e := rfl

theorem accumulated_append (e : Option Coin) (l1 l2 : List Int) :
    accumulated (accumulated e l1) l2 = accumulated e (l1 ++ l2) := by
  cases l1 with
  | nil => rfl
  | cons y l1 =>
    cases l2 with
    | nil => simp [accumulated]
    | cons z l2 =>
      simp [accumulated, Coin.zeroValue, Int.add_assoc]

theorem accumulated_perm (e : Option Coin) (l1 l2 : List Int) (h : l1.Perm l2) :
    accumulated e l1 = accumulated e l2 := by
  cases l1 with
  | nil =>
    have : l2 = [] := (List.Perm.nil_eq h).symm
    rw [this]
  | cons y l1 =>
    cases l2 with
    | nil => exact absurd h.length_eq (by simp)
    | cons z l2 =>
      simp only [accumulated, h.sum_eq]

theorem usedAmounts_cons (t : String) (c : FeeCall) (cs : List FeeCall) :
    usedAmounts t (c :: cs) = usedAmounts t [c] ++ usedAmounts t cs := by
  unfold usedAmounts
  rw [← List.filterMap_append]
  rfl

theorem wantedAmounts_cons (t : String) (c : FeeCall) (cs : List FeeCall) :
    wantedAmounts t (c :: cs) = wantedAmounts t [c] ++ wantedAmounts t cs := by
  unfold wantedAmounts
  rw [← List.filterMap_append]
  rfl

/-- One fee call that does not panic adds its amount to its own entry and
leaves every other entry of both ledgers as it was. -/
theorem FeeCall.apply_ok (g : FeeGasMeter L σ) (c : FeeCall) (h : (c.apply g).panic = none)
    (t : String) :
    (c.apply g).meter.usedFees t = accumulated (g.usedFees t) (usedAmounts t [c]) ∧
    (c.apply g).meter.feesWanted t = accumulated (g.feesWanted t) (wantedAmounts t [c]) := by
  cases c with
  | consumeFee a t' =>
    simp only [FeeCall.apply] at h ⊢
    cases hadd : Coin.Add (g.usedFees.get Coin.zeroValue t') a with
    | error e => rw [ConsumeFee_error g a t' e hadd] at h; cases h
    | ok c' =>
      rw [ConsumeFee_ok g a t' c' hadd]
      obtain ⟨x, y, hx, hy, hc⟩ := Coin.Add_eq_ok _ _ _ hadd
      by_cases ht : t' = t
      · subst ht
        simp only [GoMap.get] at hx hc
        simp [usedAmounts, wantedAmounts, accumulated, GoMap.set, hc, hx, hy, GoMap.get]
      · have ht' : t ≠ t' := fun e => ht e.symm
        simp [usedAmounts, wantedAmounts, accumulated, GoMap.set, ht, ht']
  | feeWanted a t' =>
    simp only [FeeCall.apply] at h ⊢
    cases hadd : Coin.Add (g.feesWanted.get Coin.zeroValue t') a with
    | error e => rw [FeeWanted_error g a t' e hadd] at h; cases h
    | ok c' =>
      rw [FeeWanted_ok g a t' c' hadd]
      obtain ⟨x, y, hx, hy, hc⟩ := Coin.Add_eq_ok _ _ _ hadd
      by_cases ht : t' = t
      · subst ht
        simp only [GoMap.get] at hx hc
        simp [usedAmounts, wantedAmounts, accumulated, GoMap.set, hc, hx, hy, GoMap.get]
      · have ht' : t ≠ t' := fun e => ht e.symm
        simp [usedAmounts, wantedAmounts, accumulated, GoMap.set, ht, ht']

/-- A sequence of fee calls that completes without panic leaves, for every
message type, the initial entry with the recorded amounts added. -/
theorem runFees_ok (cs : List FeeCall) (t : String) :
    ∀ g : FeeGasMeter L σ, (runFees g cs).2 = none →
      (runFees g cs).1.usedFees t = accumulated (g.usedFees t) (usedAmounts t cs) ∧
      (runFees g cs).1.feesWanted t = accumulated (g.feesWanted t) (wantedAmounts t cs) := by
  induction cs with
  | nil => intro g _; exact ⟨rfl, rfl⟩
  | cons c cs ih =>
    intro g h
    cases hp : (c.apply g).panic with
    | some e => simp [runFees, hp] at h
    | none =>
      have hrun : runFees g (c :: cs) = runFees (c.apply g).meter cs := by
        simp [runFees, hp]
      rw [hrun] at h ⊢
      have hstep := FeeCall.apply_ok g c hp t
      have ih' := ih _ h
      rw [ih'.1, ih'.2, hstep.1, hstep.2, accumulated_append, accumulated_append,
        ← usedAmounts_cons, ← wantedAmounts_cons]
      exact ⟨rfl, rfl⟩


/-- Order of the recordings on arbitrary ledgers (states built by hand
included): for every meter state, every sequence of fee recordings (each a
ConsumeFee or a FeeWanted, on the same or on different message types) and
every permutation of it, if both the sequence and the permutation complete
without a panic, they leave the same usedFees and feesWanted maps; in
particular two recordings made in either order without a panic give the same
ledgers. -/
theorem runFees_perm (g : FeeGasMeter L σ) (l1 l2 : List FeeCall) (hperm : l1.Perm l2)
    (h1 : (runFees g l1).2 = none) (h2 : (runFees g l2).2 = none) :
    (runFees g l1).1.usedFees = (runFees g l2).1.usedFees ∧
    (runFees g l1).1.feesWanted = (runFees g l2).1.feesWanted := by
  constructor
  · funext t
    rw [(runFees_ok l1 t g h1).1, (runFees_ok l2 t g h2).1]
    exact accumulated_perm _ _ _ (hperm.filterMap _)
  · funext t
    rw [(runFees_ok l1 t g h1).2, (runFees_ok l2 t g h2).2]
    exact accumulated_perm _ _ _ (hperm.filterMap _)

/-! ## RefundGas -/

/-- C11: for every base meter, meter state, amount and descriptor,
RefundGas(amount, descriptor) hands the refund to the base meter with the same
arguments (the base state and the panic are those of the base call, and a
call-recording base receives exactly that one call) and leaves used, calls,
usedFees and feesWanted as they were; after ConsumeGas(100, "iterate") the
refund RefundGas(100, "iterate") leaves used["iterate"] = 100 and
calls["iterate"] = 1. -/
theorem RefundGas_frame :
    (∀ (L σ : Type) (B : GasMeter σ) (g : FeeGasMeter L σ) (amount : Gas)
        (descriptor : String),
      (FeeGasMeter.RefundGas B g amount descriptor).meter.base
        = (B.RefundGas g.base amount descriptor).1 ∧
      (FeeGasMeter.RefundGas B g amount descriptor).panic
        = (B.RefundGas g.base amount descriptor).2 ∧
      (FeeGasMeter.RefundGas B g amount descriptor).meter.used = g.used ∧
      (FeeGasMeter.RefundGas B g amount descriptor).meter.calls = g.calls ∧
      (FeeGasMeter.RefundGas B g amount descriptor).meter.usedFees = g.usedFees ∧
      (FeeGasMeter.RefundGas B g amount descriptor).meter.feesWanted = g.feesWanted) ∧
    (∀ (L : Type) (g : FeeGasMeter L (List GasCall)) (amount : Gas) (descriptor : String),
      (FeeGasMeter.RefundGas traceMeter g amount descriptor).meter.base
        = g.base ++ [GasCall.refund amount descriptor]) ∧
    (FeeGasMeter.RefundGas limitMeter
        (FeeGasMeter.ConsumeGas limitMeter (freshMeter 1000000) 100 "iterate").meter
        100 "iterate").meter.used "iterate" = some 100 ∧
    (FeeGasMeter.RefundGas limitMeter
        (FeeGasMeter.ConsumeGas limitMeter (freshMeter 1000000) 100 "iterate").meter
        100 "iterate").meter.calls "iterate" = some 1 ∧
    FeeGasMeter.GasConsumed limitMeter
      (FeeGasMeter.RefundGas limitMeter
        (FeeGasMeter.ConsumeGas limitMeter (freshMeter 1000000) 100 "iterate").meter
        100 "iterate").meter = 0 := by
  refine ⟨?_, ?_, ?_, ?_, ?_⟩
  · intro L σ B g amount descriptor
    exact ⟨rfl, rfl, rfl, rfl, rfl, rfl⟩
  · intro L g amount descriptor
    rfl
  · simp [FeeGasMeter.RefundGas, FeeGasMeter.ConsumeGas, freshMeter,
      NewFeeTracingMeterWrapper, GoMap.get, GoMap.set, GoMap.empty, uint64Size]
  · simp [FeeGasMeter.RefundGas, FeeGasMeter.ConsumeGas, freshMeter,
      NewFeeTracingMeterWrapper, GoMap.get, GoMap.set, GoMap.empty, uint64Size]
  · simp [FeeGasMeter.RefundGas, FeeGasMeter.ConsumeGas, FeeGasMeter.GasConsumed, limitMeter,
      freshMeter, NewFeeTracingMeterWrapper, uint64Size]

/-! ## Zero-cost calls and the life of table entries -/

/-- C14, as stated, fails: on a meter whose entry calls["p"] holds 2^64 - 1,
ConsumeGas(0, "p") leaves calls["p"] = 0: the call count is not increased
by 1. -/
theorem ConsumeGas_zero_calls_wrap :
    maxCallsMeter.calls "p" = some 18446744073709551615 ∧
    (FeeGasMeter.ConsumeGas limitMeter maxCallsMeter 0 "p").panic = none ∧
    (FeeGasMeter.ConsumeGas limitMeter maxCallsMeter 0 "p").meter.calls "p" = some 0 ∧
    (FeeGasMeter.ConsumeGas limitMeter maxCallsMeter 0 "p").meter.calls.get 0 "p"
      ≠ maxCallsMeter.calls.get 0 "p" + 1 := by
  simp [FeeGasMeter.ConsumeGas, maxCallsMeter, limitMeter, GoMap.get, GoMap.set, uint64Size]

/-- C14, amended: for every base meter, meter state (whose used[purpose] is a
uint64) and purpose, ConsumeGas(0, purpose) leaves the amount used[purpose] at
its previous value (creating the entry with amount 0 when the purpose was
absent) and sets calls[purpose] to its previous value plus 1 modulo 2^64, which
is the previous value plus 1 whenever that count was below 2^64 - 1: short of
the wrap, a zero-cost call still increments the call count. -/
theorem ConsumeGas_zero (B : GasMeter σ) (g : FeeGasMeter L σ) (purpose : String)
    (hu : g.used.get 0 purpose < 2 ^ 64) :
    (FeeGasMeter.ConsumeGas B g 0 purpose).meter.used purpose
      = some (g.used.get 0 purpose) ∧
    (g.used purpose = none →
      (FeeGasMeter.ConsumeGas B g 0 purpose).meter.used purpose = some 0) ∧
    (FeeGasMeter.ConsumeGas B g 0 purpose).meter.calls purpose
      = some ((g.calls.get 0 purpose + 1) % 2 ^ 64) ∧
    (g.calls.get 0 purpose + 1 < 2 ^ 64 →
      (FeeGasMeter.ConsumeGas B g 0 purpose).meter.calls purpose
        = some (g.calls.get 0 purpose + 1)) := by
  have hused : (FeeGasMeter.ConsumeGas B g 0 purpose).meter.used purpose
      = some (g.used.get 0 purpose) := by
    simp only [FeeGasMeter.ConsumeGas, GoMap.set_same, uint64Size, Nat.add_zero,
      Nat.mod_eq_of_lt hu]
  have hcalls : (FeeGasMeter.ConsumeGas B g 0 purpose).meter.calls purpose
      = some ((g.calls.get 0 purpose + 1) % 2 ^ 64) := by
    simp only [FeeGasMeter.ConsumeGas, GoMap.set_same, uint64Size]
  refine ⟨hused, ?_, hcalls, ?_⟩
  · intro habs
    rw [hused]
    simp [GoMap.get, habs]
  · intro hlt
    rw [hcalls, Nat.mod_eq_of_lt hlt]

/-- Witness of C14: on a fresh meter, ConsumeGas(0, "hash") creates
used["hash"] = 0 and sets calls["hash"] = 1. -/
theorem ConsumeGas_zero_witness :
    (FeeGasMeter.ConsumeGas limitMeter (freshMeter 1000000) 0 "hash").meter.used "hash"
      = some 0 ∧
    (FeeGasMeter.ConsumeGas limitMeter (freshMeter 1000000) 0 "hash").meter.calls "hash"
      = some 1 := by
  have h := ConsumeGas_zero limitMeter (freshMeter 1000000) "hash"
    (by simp [freshMeter, NewFeeTracingMeterWrapper, GoMap.get, GoMap.empty])
  exact ⟨h.2.1 (by simp [freshMeter, NewFeeTracingMeterWrapper, GoMap.empty]),
    h.2.2.2 (by simp [freshMeter, NewFeeTracingMeterWrapper, GoMap.get, GoMap.empty])⟩

/-- C15: for every operation of the meter (ConsumeGas, RefundGas, ConsumeFee,
FeeWanted and the queries), whether or not it panics, a purpose that has an
entry in used before the operation has one after it, and likewise for calls:
entries of the purpose-usage table are never deleted. -/
theorem table_entries_kept (B : GasMeter σ) (g : FeeGasMeter L σ) (op : MeterOp)
    (p : String) :
    (g.used p ≠ none → (op.apply B g).meter.used p ≠ none) ∧
    (g.calls p ≠ none → (op.apply B g).meter.calls p ≠ none) := by
  cases op with
  | ConsumeGas a d =>
    constructor
    · intro h
      by_cases hp : p = d <;> simp [MeterOp.apply, FeeGasMeter.ConsumeGas, GoMap.set, hp, h]
    · intro h
      by_cases hp : p = d <;> simp [MeterOp.apply, FeeGasMeter.ConsumeGas, GoMap.set, hp, h]
  | RefundGas a d => exact ⟨fun h => h, fun h => h⟩
  | ConsumeFee a t =>
    cases hadd : Coin.Add (g.usedFees.get Coin.zeroValue t) a with
    | error e =>
      simp only [MeterOp.apply, ConsumeFee_error g a t e hadd]
      exact ⟨fun h => h, fun h => h⟩
    | ok c =>
      simp only [MeterOp.apply, ConsumeFee_ok g a t c hadd]
      exact ⟨fun h => h, fun h => h⟩
  | FeeWanted a t =>
    cases hadd : Coin.Add (g.feesWanted.get Coin.zeroValue t) a with
    | error e =>
      simp only [MeterOp.apply, FeeWanted_error g a t e hadd]
      exact ⟨fun h => h, fun h => h⟩
    | ok c =>
      simp only [MeterOp.apply, FeeWanted_ok g a t c hadd]
      exact ⟨fun h => h, fun h => h⟩
  | query q => exact ⟨fun h => h, fun h => h⟩

/-- Witness of C15: on the meter with used["p"] = 7, the entries for "p" survive
a further ConsumeGas(5, "q"). -/
theorem table_entries_kept_witness :
    (FeeGasMeter.ConsumeGas limitMeter maxCallsMeter 5 "q").meter.used "p" ≠ none ∧
    (FeeGasMeter.ConsumeGas limitMeter maxCallsMeter 5 "q").meter.calls "p" ≠ none :=
  ⟨(table_entries_kept limitMeter maxCallsMeter (MeterOp.ConsumeGas 5 "q") "p").1
      (by simp [maxCallsMeter, GoMap.set]),
    (table_entries_kept limitMeter maxCallsMeter (MeterOp.ConsumeGas 5 "q") "p").2
      (by simp [maxCallsMeter, GoMap.set])⟩


/-! ## Rendering and construction -/

/-- C16: for every base meter, base state, logger and contents of the
purpose-usage maps and fee ledgers, String() is the text
"tracingGasMeter:\n  limit: L\n  consumed: C" with L and C the decimal
renderings of the base meter's Limit() and GasConsumed(), so it does not
depend on the tables or ledgers; with limit 1,000,000 and 350 consumed it is
"tracingGasMeter:\n  limit: 1000000\n  consumed: 350". -/
theorem String_renders_limit_and_consumed :
    (∀ (L σ : Type) (B : GasMeter σ) (logger : L) (base : σ) (used calls : GoMap Nat)
        (usedFees feesWanted : GoMap Coin),
      FeeGasMeter.String B ⟨logger, base, used, calls, usedFees, feesWanted⟩
        = "tracingGasMeter:\n  limit: " ++ Nat.repr (B.Limit base)
            ++ "\n  consumed: " ++ Nat.repr (B.GasConsumed base)) ∧
    (∀ (L σ : Type) (B : GasMeter σ) (logger : L) (base : σ) (used calls : GoMap Nat)
        (usedFees feesWanted : GoMap Coin),
      FeeGasMeter.String B ⟨logger, base, used, calls, usedFees, feesWanted⟩
        = FeeGasMeter.String B (NewFeeTracingMeterWrapper logger base)) ∧
    FeeGasMeter.String limitMeter
        (⟨(), ⟨1000000, 350⟩, GoMap.set GoMap.empty "iterate" 150,
          GoMap.set GoMap.empty "iterate" 2, GoMap.empty, GoMap.empty⟩ :
          FeeGasMeter Unit LimitState)
      = "tracingGasMeter:\n  limit: 1000000\n  consumed: 350" ∧
    Nat.repr 1000000 = "1000000" ∧ Nat.repr 0 = "0" :=
  ⟨fun _ _ _ _ _ _ _ _ _ => rfl, fun _ _ _ _ _ _ _ _ _ => rfl, by decide, by decide,
    by decide⟩

/-- C17: for every logger and base meter, NewFeeTracingMeterWrapper(logger, base)
returns a meter whose maps used, calls, usedFees and feesWanted have no entry,
whose logger and wrapped meter are the given ones, and whose pass-through
queries return the base meter's current values. -/
theorem NewFeeTracingMeterWrapper_fresh (B : GasMeter σ) (logger : L) (base : σ) :
    (∀ k, (NewFeeTracingMeterWrapper logger base).used k = none) ∧
    (∀ k, (NewFeeTracingMeterWrapper logger base).calls k = none) ∧
    (∀ k, (NewFeeTracingMeterWrapper logger base).usedFees k = none) ∧
    (∀ k, (NewFeeTracingMeterWrapper logger base).feesWanted k = none) ∧
    (NewFeeTracingMeterWrapper logger base).base = base ∧
    (NewFeeTracingMeterWrapper logger base).log = logger ∧
    FeeGasMeter.GasConsumed B (NewFeeTracingMeterWrapper logger base) = B.GasConsumed base ∧
    FeeGasMeter.Limit B (NewFeeTracingMeterWrapper logger base) = B.Limit base ∧
    FeeGasMeter.GasConsumedToLimit B (NewFeeTracingMeterWrapper logger base)
      = B.GasConsumedToLimit base ∧
    FeeGasMeter.IsPastLimit B (NewFeeTracingMeterWrapper logger base) = B.IsPastLimit base ∧
    FeeGasMeter.IsOutOfGas B (NewFeeTracingMeterWrapper logger base) = B.IsOutOfGas base :=
  ⟨fun _ => rfl, fun _ => rfl, fun _ => rfl, fun _ => rfl, rfl, rfl, rfl, rfl, rfl, rfl, rfl⟩

/-! ## Frame of the fee recordings -/

/-- C20: for every meter state, coin and message type, ConsumeFee leaves the
logger, the base meter, used, calls, feesWanted and the usedFees entry of
every other message type as they were and emits no telemetry, and FeeWanted
does the same with the two ledgers exchanged, whether or not the call panics;
hence GasConsumed is the same before and after. -/
theorem fee_recording_frame (B : GasMeter σ) (g : FeeGasMeter L σ) (amount : Coin)
    (msgType t' : String) (ht : t' ≠ msgType) :
    ((FeeGasMeter.ConsumeFee g amount msgType).meter.log = g.log ∧
      (FeeGasMeter.ConsumeFee g amount msgType).meter.base = g.base ∧
      (FeeGasMeter.ConsumeFee g amount msgType).meter.used = g.used ∧
      (FeeGasMeter.ConsumeFee g amount msgType).meter.calls = g.calls ∧
      (FeeGasMeter.ConsumeFee g amount msgType).meter.feesWanted = g.feesWanted ∧
      (FeeGasMeter.ConsumeFee g amount msgType).meter.usedFees t' = g.usedFees t' ∧
      (FeeGasMeter.ConsumeFee g amount msgType).emitted = [] ∧
      FeeGasMeter.GasConsumed B (FeeGasMeter.ConsumeFee g amount msgType).meter
        = FeeGasMeter.GasConsumed B g) ∧
    ((FeeGasMeter.FeeWanted g amount msgType).meter.log = g.log ∧
      (FeeGasMeter.FeeWanted g amount msgType).meter.base = g.base ∧
      (FeeGasMeter.FeeWanted g amount msgType).meter.used = g.used ∧
      (FeeGasMeter.FeeWanted g amount msgType).meter.calls = g.calls ∧
      (FeeGasMeter.FeeWanted g amount msgType).meter.usedFees = g.usedFees ∧
      (FeeGasMeter.FeeWanted g amount msgType).meter.feesWanted t' = g.feesWanted t' ∧
      (FeeGasMeter.FeeWanted g amount msgType).emitted = [] ∧
      FeeGasMeter.GasConsumed B (FeeGasMeter.FeeWanted g amount msgType).meter
        = FeeGasMeter.GasConsumed B g) := by
  constructor
  · cases hadd : Coin.Add (g.usedFees.get Coin.zeroValue msgType) amount with
    | error e =>
      rw [ConsumeFee_error g amount msgType e hadd]
      exact ⟨rfl, rfl, rfl, rfl, rfl, rfl, rfl, rfl⟩
    | ok c =>
      rw [ConsumeFee_ok g amount msgType c hadd]
      exact ⟨rfl, rfl, rfl, rfl, rfl, GoMap.set_other _ _ _ _ ht, rfl, rfl⟩
  · cases hadd : Coin.Add (g.feesWanted.get Coin.zeroValue msgType) amount with
    | error e =>
      rw [FeeWanted_error g amount msgType e hadd]
      exact ⟨rfl, rfl, rfl, rfl, rfl, rfl, rfl, rfl⟩
    | ok c =>
      rw [FeeWanted_ok g amount msgType c hadd]
      exact ⟨rfl, rfl, rfl, rfl, rfl, GoMap.set_other _ _ _ _ ht, rfl, rfl⟩


/-- Witness of C20: with 10 stake stored for "MsgAdd", recording 5 stake for
"MsgAdd" leaves the entries of "MsgUpdate" and the gas consumed as they were. -/
theorem fee_recording_frame_witness :
    (FeeGasMeter.ConsumeFee stakedMeter ⟨"stake", some 5⟩ "MsgAdd").meter.usedFees "MsgUpdate"
      = stakedMeter.usedFees "MsgUpdate" ∧
    FeeGasMeter.GasConsumed limitMeter
        (FeeGasMeter.ConsumeFee stakedMeter ⟨"stake", some 5⟩ "MsgAdd").meter
      = FeeGasMeter.GasConsumed limitMeter stakedMeter ∧
    (FeeGasMeter.FeeWanted stakedMeter ⟨"stake", some 5⟩ "MsgAdd").meter.feesWanted "MsgUpdate"
      = stakedMeter.feesWanted "MsgUpdate" ∧
    FeeGasMeter.GasConsumed limitMeter
        (FeeGasMeter.FeeWanted stakedMeter ⟨"stake", some 5⟩ "MsgAdd").meter
      = FeeGasMeter.GasConsumed limitMeter stakedMeter :=
  have h := fee_recording_frame limitMeter stakedMeter ⟨"stake", some 5⟩ "MsgAdd" "MsgUpdate"
    (by decide)
  ⟨h.1.2.2.2.2.2.1, h.1.2.2.2.2.2.2.2, h.2.2.2.2.2.2.1, h.2.2.2.2.2.2.2.2⟩

/-! ## Ledger amounts -/

theorem ledgerAmount_accumulated (m : GoMap Coin) (t : String) (l : List Int)
    (m' : GoMap Coin) (h : m' t = accumulated (m t) l) :
    ledgerAmount m' t = ledgerAmount m t + l.sum := by
  unfold ledgerAmount GoMap.get
  rw [h]
  cases l with
  | nil => simp [accumulated]
  | cons y l => simp [accumulated]

theorem usedAmounts_single (t : String) (a : Coin) (t' : String) :
    (usedAmounts t [FeeCall.consumeFee a t']).sum
      = if t' = t then a.Amount.getD 0 else 0 := by
  by_cases h : t' = t <;> simp [usedAmounts, h]

theorem wantedAmounts_single (t : String) (a : Coin) (t' : String) :
    (wantedAmounts t [FeeCall.feeWanted a t']).sum
      = if t' = t then a.Amount.getD 0 else 0 := by
  by_cases h : t' = t <;> simp [wantedAmounts, h]

/-- The amounts stored after a sequence of fee calls that completes without
panic: the amounts stored before plus the amounts passed. -/
theorem runFees_ledgerAmount (g : FeeGasMeter L σ) (cs : List FeeCall) (t : String)
    (h : (runFees g cs).2 = none) :
    ledgerAmount (runFees g cs).1.usedFees t
      = ledgerAmount g.usedFees t + (usedAmounts t cs).sum ∧
    ledgerAmount (runFees g cs).1.feesWanted t
      = ledgerAmount g.feesWanted t + (wantedAmounts t cs).sum :=
  ⟨ledgerAmount_accumulated _ _ _ _ (runFees_ok cs t g h).1,
    ledgerAmount_accumulated _ _ _ _ (runFees_ok cs t g h).2⟩

/-- C12: for every meter state, every operation of the meter whose coin (if it
passes one) has a non-negative amount, and every message type, the amount
stored for the type in usedFees and in feesWanted after the operation is at
least the amount stored before (an absent entry counting as zero), whether or
not the operation panics. -/
theorem ledger_monotone (B : GasMeter σ) (g : FeeGasMeter L σ) (op : MeterOp) (t : String)
    (h : 0 ≤ op.coinAmount) :
    ledgerAmount g.usedFees t ≤ ledgerAmount (op.apply B g).meter.usedFees t ∧
    ledgerAmount g.feesWanted t ≤ ledgerAmount (op.apply B g).meter.feesWanted t := by
  cases op with
  | ConsumeGas a d => exact ⟨le_refl _, le_refl _⟩
  | RefundGas a d => exact ⟨le_refl _, le_refl _⟩
  | query q => exact ⟨le_refl _, le_refl _⟩
  | ConsumeFee a t' =>
    have hc : (FeeCall.consumeFee a t').apply g = FeeGasMeter.ConsumeFee g a t' := rfl
    cases hp : (FeeGasMeter.ConsumeFee g a t').panic with
    | some e =>
      cases hadd : Coin.Add (g.usedFees.get Coin.zeroValue t') a with
      | error e' =>
        simp only [MeterOp.apply, ConsumeFee_error g a t' e' hadd]
        exact ⟨le_refl _, le_refl _⟩
      | ok c => rw [ConsumeFee_ok g a t' c hadd] at hp; cases hp
    | none =>
      have hstep := FeeCall.apply_ok g (FeeCall.consumeFee a t') (hc ▸ hp) t
      rw [hc] at hstep
      have hu := ledgerAmount_accumulated _ _ _ _ hstep.1
      have hw := ledgerAmount_accumulated _ _ _ _ hstep.2
      rw [usedAmounts_single] at hu
      have hw0 : (wantedAmounts t [FeeCall.consumeFee a t']).sum = 0 := by
        simp [wantedAmounts]
      rw [hw0] at hw
      simp only [MeterOp.apply, MeterOp.coinAmount] at h ⊢
      rw [hu, hw]
      constructor
      · split <;> omega
      · omega
  | FeeWanted a t' =>
    have hc : (FeeCall.feeWanted a t').apply g = FeeGasMeter.FeeWanted g a t' := rfl
    cases hp : (FeeGasMeter.FeeWanted g a t').panic with
    | some e =>
      cases hadd : Coin.Add (g.feesWanted.get Coin.zeroValue t') a with
      | error e' =>
        simp only [MeterOp.apply, FeeWanted_error g a t' e' hadd]
        exact ⟨le_refl _, le_refl _⟩
      | ok c => rw [FeeWanted_ok g a t' c hadd] at hp; cases hp
    | none =>
      have hstep := FeeCall.apply_ok g (FeeCall.feeWanted a t') (hc ▸ hp) t
      rw [hc] at hstep
      have hu := ledgerAmount_accumulated _ _ _ _ hstep.1
      have hw := ledgerAmount_accumulated _ _ _ _ hstep.2
      rw [wantedAmounts_single] at hw
      have hu0 : (usedAmounts t [FeeCall.feeWanted a t']).sum = 0 := by
        simp [usedAmounts]
      rw [hu0] at hu
      simp only [MeterOp.apply, MeterOp.coinAmount] at h ⊢
      rw [hu, hw]
      constructor
      · omega
      · split <;> omega

/-- Witness of C12: with 10 stake stored for "MsgAdd", ConsumeFee(5 stake,
"MsgAdd") leaves 15 stake in usedFees and 10 stake in feesWanted. -/
theorem ledger_monotone_witness :
    (ledgerAmount stakedMeter.usedFees "MsgAdd"
        ≤ ledgerAmount ((MeterOp.ConsumeFee ⟨"stake", some 5⟩ "MsgAdd").apply limitMeter
            stakedMeter).meter.usedFees "MsgAdd" ∧
      ledgerAmount stakedMeter.feesWanted "MsgAdd"
        ≤ ledgerAmount ((MeterOp.ConsumeFee ⟨"stake", some 5⟩ "MsgAdd").apply limitMeter
            stakedMeter).meter.feesWanted "MsgAdd") ∧
    ledgerAmount stakedMeter.usedFees "MsgAdd" = 10 ∧
    ledgerAmount ((MeterOp.ConsumeFee ⟨"stake", some 5⟩ "MsgAdd").apply limitMeter
        stakedMeter).meter.usedFees "MsgAdd" = 15 :=
  ⟨ledger_monotone limitMeter stakedMeter (MeterOp.ConsumeFee ⟨"stake", some 5⟩ "MsgAdd")
      "MsgAdd" (by decide),
    by decide, by decide⟩


/-! ## Zero-value coins -/

/-- A coin of amount 0 on a ledger that holds an entry (a state built by hand):
for every meter state in which usedFees[msgType] (respectively
feesWanted[msgType]) holds a coin of denomination d with an amount x of at most
256 bits, ConsumeFee (respectively FeeWanted) called with a coin of amount 0
in denomination d does not panic and leaves the entry as it was; when d is not
empty, the zero value of the coin type is refused against that entry with the
denomination-mismatch panic. -/
theorem zero_amount_coin_ok (g : FeeGasMeter L σ) (msgType d : String) (x : Int)
    (hx : x.natAbs < 2 ^ 256) :
    (g.usedFees msgType = some ⟨d, some x⟩ →
      (FeeGasMeter.ConsumeFee g ⟨d, some 0⟩ msgType).panic = none ∧
      (FeeGasMeter.ConsumeFee g ⟨d, some 0⟩ msgType).meter.usedFees msgType
        = some ⟨d, some x⟩ ∧
      (d ≠ "" → (FeeGasMeter.ConsumeFee g Coin.zeroValue msgType).panic
        = some (Panic.invalidCoinDenominations d ""))) ∧
    (g.feesWanted msgType = some ⟨d, some x⟩ →
      (FeeGasMeter.FeeWanted g ⟨d, some 0⟩ msgType).panic = none ∧
      (FeeGasMeter.FeeWanted g ⟨d, some 0⟩ msgType).meter.feesWanted msgType
        = some ⟨d, some x⟩ ∧
      (d ≠ "" → (FeeGasMeter.FeeWanted g Coin.zeroValue msgType).panic
        = some (Panic.invalidCoinDenominations d ""))) := by
  have hfit : (x + 0).natAbs < 2 ^ 256 := by rw [Int.add_zero]; exact hx
  have hadd := Coin.Add_ok d x 0 hfit
  rw [Int.add_zero] at hadd
  constructor
  · intro h
    have hget := GoMap.get_of_some Coin.zeroValue _ _ _ h
    refine ⟨?_, ?_, ?_⟩
    · rw [ConsumeFee_ok g _ _ _ (by rw [hget]; exact hadd)]
    · rw [ConsumeFee_ok g _ _ _ (by rw [hget]; exact hadd)]
      exact GoMap.set_same _ _ _
    · intro hd
      have hmis : Coin.Add ⟨d, some x⟩ Coin.zeroValue
          = Except.error (Panic.invalidCoinDenominations d "") :=
        Coin.Add_denom ⟨d, some x⟩ Coin.zeroValue hd
      rw [ConsumeFee_error g _ _ _ (by rw [hget]; exact hmis)]
  · intro h
    have hget := GoMap.get_of_some Coin.zeroValue _ _ _ h
    refine ⟨?_, ?_, ?_⟩
    · rw [FeeWanted_ok g _ _ _ (by rw [hget]; exact hadd)]
    · rw [FeeWanted_ok g _ _ _ (by rw [hget]; exact hadd)]
      exact GoMap.set_same _ _ _
    · intro hd
      have hmis : Coin.Add ⟨d, some x⟩ Coin.zeroValue
          = Except.error (Panic.invalidCoinDenominations d "") :=
        Coin.Add_denom ⟨d, some x⟩ Coin.zeroValue hd
      rw [FeeWanted_error g _ _ _ (by rw [hget]; exact hmis)]

/-! ## Reconciliation -/

theorem reconcile_of_present (fw uf : GoMap Coin) (t : String)
    (h : fw t ≠ none ∨ uf t ≠ none) :
    reconcile fw uf t
      = some ⟨ledgerAmount fw t, ledgerAmount uf t, ledgerAmount uf t - ledgerAmount fw t⟩ := by
  unfold reconcile
  cases hw : fw t with
  | none =>
    cases hu : uf t with
    | none => simp [hw, hu] at h
    | some c => rfl
  | some c => rfl

/-- A message type with an entry in feesWanted only is reconciled with used = 0. -/
theorem reconcile_wanted_only (fw uf : GoMap Coin) (t : String) (c : Coin)
    (hw : fw t = some c) (hu : uf t = none) :
    reconcile fw uf t = some ⟨c.Amount.getD 0, 0, - c.Amount.getD 0⟩ := by
  rw [reconcile_of_present fw uf t (Or.inl (by rw [hw]; simp))]
  simp [ledgerAmount, GoMap.get, hw, hu, Coin.zeroValue]

/-- Reconciliation after a panic-free sequence on arbitrary ledgers (states
built by hand included; from the constructor only the empty sequence is
panic-free): for every sequence of ConsumeFee and FeeWanted calls that
completes without panic, that starts with equal amounts stored for a
message type in the two ledgers, and every message type present in either map
at its end, reconciliation
yields the triple (wanted, used, delta = used − wanted) of the final amounts,
and the delta is zero if and only if the sum of the amounts passed to
ConsumeFee for that type equals the sum of the amounts passed to FeeWanted
for it. -/
theorem reconcile_delta_zero_iff (g : FeeGasMeter L σ) (cs : List FeeCall) (t : String)
    (hrun : (runFees g cs).2 = none)
    (hbal : ledgerAmount g.usedFees t = ledgerAmount g.feesWanted t)
    (hpres : (runFees g cs).1.feesWanted t ≠ none ∨ (runFees g cs).1.usedFees t ≠ none) :
    ∃ r, reconcile (runFees g cs).1.feesWanted (runFees g cs).1.usedFees t = some r ∧
      r.wanted = ledgerAmount (runFees g cs).1.feesWanted t ∧
      r.used = ledgerAmount (runFees g cs).1.usedFees t ∧
      r.delta = r.used - r.wanted ∧
      (r.delta = 0 ↔ (usedAmounts t cs).sum = (wantedAmounts t cs).sum) := by
  refine ⟨_, reconcile_of_present _ _ t hpres, rfl, rfl, rfl, ?_⟩
  have h := runFees_ledgerAmount g cs t hrun
  simp only []
  rw [h.1, h.2, hbal]
  constructor <;> intro h' <;> omega

/-- C19, at the failing input (scenario C): on a fresh meter
FeeWanted(15 stake, "MsgUpdate") panics with the denomination mismatch between
the zero-value coin and "stake" and stores nothing, so "MsgUpdate" is in
neither map and reconciliation has no triple for it (not wanted = 15,
used = 0, delta = -15). On a meter that does hold 15 stake for "MsgUpdate" in
feesWanted only, reconciliation gives wanted = 15, used = 0, delta = -15. -/
theorem scenario_C_not_recorded :
    (FeeGasMeter.FeeWanted (freshMeter 1000000) ⟨"stake", some 15⟩ "MsgUpdate").panic
      = some (Panic.invalidCoinDenominations "" "stake") ∧
    (FeeGasMeter.FeeWanted (freshMeter 1000000) ⟨"stake", some 15⟩ "MsgUpdate").meter.feesWanted
      "MsgUpdate" = none ∧
    reconcile
      (FeeGasMeter.FeeWanted (freshMeter 1000000) ⟨"stake", some 15⟩ "MsgUpdate").meter.feesWanted
      (FeeGasMeter.FeeWanted (freshMeter 1000000) ⟨"stake", some 15⟩ "MsgUpdate").meter.usedFees
      "MsgUpdate" = none ∧
    reconcile wantedOnlyMeter.feesWanted wantedOnlyMeter.usedFees "MsgUpdate"
      = some ⟨15, 0, -15⟩ := by
  refine ⟨by decide, by decide, by decide, by decide⟩


/-! ## Reachable states: the fee ledgers stay empty -/

/-- An operation on a meter with empty ledgers leaves the ledgers empty: the gas
methods and the queries do not write them, and a fee recording panics on the
absent entry. -/
theorem MeterOp.apply_ledgers_empty (B : GasMeter σ) (g : FeeGasMeter L σ) (op : MeterOp)
    (hu : ∀ t, g.usedFees t = none) (hw : ∀ t, g.feesWanted t = none) :
    (∀ t, (op.apply B g).meter.usedFees t = none) ∧
    (∀ t, (op.apply B g).meter.feesWanted t = none) := by
  cases op with
  | ConsumeGas a d => exact ⟨hu, hw⟩
  | RefundGas a d => exact ⟨hu, hw⟩
  | query q => exact ⟨hu, hw⟩
  | ConsumeFee a t' =>
    have h := (ConsumeFee_absent g a t' (hu t')).2
    simp only [MeterOp.apply, h]
    exact ⟨hu, hw⟩
  | FeeWanted a t' =>
    have h := (FeeWanted_absent g a t' (hw t')).2
    simp only [MeterOp.apply, h]
    exact ⟨hu, hw⟩

/-- Any sequence of operations from a meter with empty ledgers leaves the
ledgers empty. -/
theorem runOps_ledgers_empty_of (B : GasMeter σ) (ops : List MeterOp) :
    ∀ g : FeeGasMeter L σ, (∀ t, g.usedFees t = none) → (∀ t, g.feesWanted t = none) →
      (∀ t, (runOps B g ops).usedFees t = none) ∧
      (∀ t, (runOps B g ops).feesWanted t = none) := by
  induction ops with
  | nil => intro g hu hw; exact ⟨hu, hw⟩
  | cons op ops ih =>
    intro g hu hw
    have h := MeterOp.apply_ledgers_empty B g op hu hw
    exact ih _ h.1 h.2

/-- In every state reached from the constructor both ledgers are empty. -/
theorem runOps_ledgers_empty (B : GasMeter σ) (logger : L) (base : σ) (ops : List MeterOp) :
    (∀ t, (runOps B (NewFeeTracingMeterWrapper logger base) ops).usedFees t = none) ∧
    (∀ t, (runOps B (NewFeeTracingMeterWrapper logger base) ops).feesWanted t = none) :=
  runOps_ledgers_empty_of B ops _ (fun _ => rfl) (fun _ => rfl)

/-- A sequence of fee recordings on a meter with empty ledgers leaves the meter
as it was: the first call panics and ends the sequence. -/
theorem runFees_of_ledgers_empty (g : FeeGasMeter L σ) (l : List FeeCall)
    (hu : ∀ t, g.usedFees t = none) (hw : ∀ t, g.feesWanted t = none) :
    (runFees g l).1 = g := by
  cases l with
  | nil => rfl
  | cons c cs =>
    cases c with
    | consumeFee a t =>
      have h := ConsumeFee_absent g a t (hu t)
      cases hp : (FeeGasMeter.ConsumeFee g a t).panic with
      | none => exact absurd hp h.1
      | some e => simp only [runFees, FeeCall.apply, hp, h.2]
    | feeWanted a t =>
      have h := FeeWanted_absent g a t (hw t)
      cases hp : (FeeGasMeter.FeeWanted g a t).panic with
      | none => exact absurd hp h.1
      | some e => simp only [runFees, FeeCall.apply, hp, h.2]

/-- C5, at the failing input: on a freshly constructed meter
ConsumeFee(10 stake, "MsgAdd") panics on the absent entry and stores nothing,
and the further call ConsumeFee(10 stake, "MsgAdd") on the meter it leaves
panics in the same way, so usedFees["MsgAdd"] is absent after the two calls
(not 20 stake): the further call accumulates nothing. FeeWanted does the same
on feesWanted. In every state reached from the constructor the read of
usedFees[msgType] finds no coin and ConsumeFee panics, whatever the coin. -/
theorem ConsumeFee_twice_stores_nothing :
    (FeeGasMeter.ConsumeFee (freshMeter 1000000) ⟨"stake", some 10⟩ "MsgAdd").panic
      = some (Panic.invalidCoinDenominations "" "stake") ∧
    (FeeGasMeter.ConsumeFee
        (FeeGasMeter.ConsumeFee (freshMeter 1000000) ⟨"stake", some 10⟩ "MsgAdd").meter
        ⟨"stake", some 10⟩ "MsgAdd").panic
      = some (Panic.invalidCoinDenominations "" "stake") ∧
    (FeeGasMeter.ConsumeFee
        (FeeGasMeter.ConsumeFee (freshMeter 1000000) ⟨"stake", some 10⟩ "MsgAdd").meter
        ⟨"stake", some 10⟩ "MsgAdd").meter.usedFees "MsgAdd" = none ∧
    (FeeGasMeter.FeeWanted
        (FeeGasMeter.FeeWanted (freshMeter 1000000) ⟨"stake", some 10⟩ "MsgAdd").meter
        ⟨"stake", some 10⟩ "MsgAdd").panic
      = some (Panic.invalidCoinDenominations "" "stake") ∧
    (FeeGasMeter.FeeWanted
        (FeeGasMeter.FeeWanted (freshMeter 1000000) ⟨"stake", some 10⟩ "MsgAdd").meter
        ⟨"stake", some 10⟩ "MsgAdd").meter.feesWanted "MsgAdd" = none ∧
    (∀ (L σ : Type) (B : GasMeter σ) (logger : L) (base : σ) (ops : List MeterOp)
        (amount : Coin) (msgType : String),
      (runOps B (NewFeeTracingMeterWrapper logger base) ops).usedFees msgType = none ∧
      (FeeGasMeter.ConsumeFee (runOps B (NewFeeTracingMeterWrapper logger base) ops)
        amount msgType).panic ≠ none ∧
      (FeeGasMeter.ConsumeFee (runOps B (NewFeeTracingMeterWrapper logger base) ops)
        amount msgType).meter.usedFees msgType = none) := by
  refine ⟨by decide, by decide, by decide, by decide, by decide, ?_⟩
  intro L σ B logger base ops amount msgType
  have he := (runOps_ledgers_empty B logger base ops).1 msgType
  have h := ConsumeFee_absent (runOps B (NewFeeTracingMeterWrapper logger base) ops)
    amount msgType he
  exact ⟨he, h.1, by rw [h.2]; exact he⟩

/-- C7: in every state reached from a freshly constructed meter by any sequence
of operations, two fee recordings (each a ConsumeFee or a FeeWanted, in any
denominations, on the same or on different message types) made in either
order leave the same usedFees and feesWanted maps, and any two sequences of
recordings, in particular a sequence and every permutation of it, leave the
same ledgers, both when the first panic ends the sequence and when the caller
recovers from each panic and goes on. (In such a state every recording panics
on the absent entry and writes nothing.) -/
theorem fee_recordings_commute (B : GasMeter σ) (logger : L) (base : σ)
    (ops : List MeterOp) (c1 c2 : FeeCall) (l1 l2 : List FeeCall) (m1 m2 : List MeterOp) :
    (runFees (runOps B (NewFeeTracingMeterWrapper logger base) ops) [c1, c2]).1.usedFees
      = (runFees (runOps B (NewFeeTracingMeterWrapper logger base) ops) [c2, c1]).1.usedFees ∧
    (runFees (runOps B (NewFeeTracingMeterWrapper logger base) ops) [c1, c2]).1.feesWanted
      = (runFees (runOps B (NewFeeTracingMeterWrapper logger base) ops)
          [c2, c1]).1.feesWanted ∧
    (runFees (runOps B (NewFeeTracingMeterWrapper logger base) ops) l1).1.usedFees
      = (runFees (runOps B (NewFeeTracingMeterWrapper logger base) ops) l2).1.usedFees ∧
    (runFees (runOps B (NewFeeTracingMeterWrapper logger base) ops) l1).1.feesWanted
      = (runFees (runOps B (NewFeeTracingMeterWrapper logger base) ops) l2).1.feesWanted ∧
    (runOps B (runOps B (NewFeeTracingMeterWrapper logger base) ops) m1).usedFees
      = (runOps B (runOps B (NewFeeTracingMeterWrapper logger base) ops) m2).usedFees ∧
    (runOps B (runOps B (NewFeeTracingMeterWrapper logger base) ops) m1).feesWanted
      = (runOps B (runOps B (NewFeeTracingMeterWrapper logger base) ops) m2).feesWanted := by
  have he := runOps_ledgers_empty B logger base ops
  have hf : ∀ l : List FeeCall,
      (runFees (runOps B (NewFeeTracingMeterWrapper logger base) ops) l).1
        = runOps B (NewFeeTracingMeterWrapper logger base) ops :=
    fun l => runFees_of_ledgers_empty _ l he.1 he.2
  have hr : ∀ m : List MeterOp,
      (runOps B (runOps B (NewFeeTracingMeterWrapper logger base) ops) m).usedFees
          = (runOps B (NewFeeTracingMeterWrapper logger base) ops).usedFees ∧
      (runOps B (runOps B (NewFeeTracingMeterWrapper logger base) ops) m).feesWanted
          = (runOps B (NewFeeTracingMeterWrapper logger base) ops).feesWanted := by
    intro m
    have h := runOps_ledgers_empty_of B m _ he.1 he.2
    exact ⟨funext fun t => (h.1 t).trans (he.1 t).symm,
      funext fun t => (h.2 t).trans (he.2 t).symm⟩
  refine ⟨?_, ?_, ?_, ?_, ?_, ?_⟩
  · rw [hf, hf]
  · rw [hf, hf]
  · rw [hf, hf]
  · rw [hf, hf]
  · rw [(hr m1).1, (hr m2).1]
  · rw [(hr m1).2, (hr m2).2]

/-- Witness of C7: after ConsumeGas(100, "iterate") on a fresh meter,
FeeWanted(10 stake, "MsgAdd") and ConsumeFee(20 stake, "MsgUpdate") leave the
same ledgers in either order. -/
theorem fee_recordings_commute_witness :
    (runFees (runOps limitMeter (NewFeeTracingMeterWrapper () (⟨1000000, 0⟩ : LimitState))
        [MeterOp.ConsumeGas 100 "iterate"])
      [FeeCall.feeWanted ⟨"stake", some 10⟩ "MsgAdd",
       FeeCall.consumeFee ⟨"stake", some 20⟩ "MsgUpdate"]).1.usedFees
      = (runFees (runOps limitMeter (NewFeeTracingMeterWrapper () (⟨1000000, 0⟩ : LimitState))
        [MeterOp.ConsumeGas 100 "iterate"])
      [FeeCall.consumeFee ⟨"stake", some 20⟩ "MsgUpdate",
       FeeCall.feeWanted ⟨"stake", some 10⟩ "MsgAdd"]).1.usedFees ∧
    (runFees (runOps limitMeter (NewFeeTracingMeterWrapper () (⟨1000000, 0⟩ : LimitState))
        [MeterOp.ConsumeGas 100 "iterate"])
      [FeeCall.feeWanted ⟨"stake", some 10⟩ "MsgAdd",
       FeeCall.consumeFee ⟨"stake", some 20⟩ "MsgUpdate"]).1.feesWanted
      = (runFees (runOps limitMeter (NewFeeTracingMeterWrapper () (⟨1000000, 0⟩ : LimitState))
        [MeterOp.ConsumeGas 100 "iterate"])
      [FeeCall.consumeFee ⟨"stake", some 20⟩ "MsgUpdate",
       FeeCall.feeWanted ⟨"stake", some 10⟩ "MsgAdd"]).1.feesWanted :=
  have h := fee_recordings_commute limitMeter () (⟨1000000, 0⟩ : LimitState)
    [MeterOp.ConsumeGas 100 "iterate"]
    (FeeCall.feeWanted ⟨"stake", some 10⟩ "MsgAdd")
    (FeeCall.consumeFee ⟨"stake", some 20⟩ "MsgUpdate") [] [] [] []
  ⟨h.1, h.2.1⟩

/-- C13, at the failing input: on a freshly constructed meter ConsumeFee and
FeeWanted panic when called with a coin of amount 0 (0 stake: the zero-value
coin read for the absent entry has the empty denomination) and when called
with the zero value of the coin type (equal denominations, then the nil
amounts are dereferenced); in every state reached from the constructor both
calls panic, whatever the message type. -/
theorem zero_coin_panics_on_fresh_meter :
    (FeeGasMeter.ConsumeFee (freshMeter 1000000) ⟨"stake", some 0⟩ "MsgAdd").panic
      = some (Panic.invalidCoinDenominations "" "stake") ∧
    (FeeGasMeter.ConsumeFee (freshMeter 1000000) Coin.zeroValue "MsgAdd").panic
      = some Panic.nilPointerDereference ∧
    (FeeGasMeter.FeeWanted (freshMeter 1000000) ⟨"stake", some 0⟩ "MsgAdd").panic
      = some (Panic.invalidCoinDenominations "" "stake") ∧
    (FeeGasMeter.FeeWanted (freshMeter 1000000) Coin.zeroValue "MsgAdd").panic
      = some Panic.nilPointerDereference ∧
    (∀ (L σ : Type) (B : GasMeter σ) (logger : L) (base : σ) (ops : List MeterOp)
        (d msgType : String),
      (FeeGasMeter.ConsumeFee (runOps B (NewFeeTracingMeterWrapper logger base) ops)
        ⟨d, some 0⟩ msgType).panic ≠ none ∧
      (FeeGasMeter.ConsumeFee (runOps B (NewFeeTracingMeterWrapper logger base) ops)
        Coin.zeroValue msgType).panic ≠ none ∧
      (FeeGasMeter.FeeWanted (runOps B (NewFeeTracingMeterWrapper logger base) ops)
        ⟨d, some 0⟩ msgType).panic ≠ none ∧
      (FeeGasMeter.FeeWanted (runOps B (NewFeeTracingMeterWrapper logger base) ops)
        Coin.zeroValue msgType).panic ≠ none) := by
  refine ⟨by decide, by decide, by decide, by decide, ?_⟩
  intro L σ B logger base ops d msgType
  have he := runOps_ledgers_empty B logger base ops
  exact ⟨(ConsumeFee_absent _ _ msgType (he.1 msgType)).1,
    (ConsumeFee_absent _ _ msgType (he.1 msgType)).1,
    (FeeWanted_absent _ _ msgType (he.2 msgType)).1,
    (FeeWanted_absent _ _ msgType (he.2 msgType)).1⟩

/-- C18, at the failing input: on a freshly constructed meter the calls
FeeWanted(10 stake, "MsgAdd") and ConsumeFee(25 stake, "MsgAdd") pass the sums
10 and 25 for "MsgAdd", which are not equal; both calls panic on the absent
entry, whether the first panic ends the sequence or the caller recovers and
goes on, so "MsgAdd" is in neither ledger afterwards, reconciliation has no
triple for it (not wanted = 10, used = 25, delta = 15) and the amounts the
ledgers hold for it differ by 0. In every state reached from the constructor
no message type has a triple. -/
theorem reconcile_misses_recordings :
    (wantedAmounts "MsgAdd"
      [FeeCall.feeWanted ⟨"stake", some 10⟩ "MsgAdd",
       FeeCall.consumeFee ⟨"stake", some 25⟩ "MsgAdd"]).sum = 10 ∧
    (usedAmounts "MsgAdd"
      [FeeCall.feeWanted ⟨"stake", some 10⟩ "MsgAdd",
       FeeCall.consumeFee ⟨"stake", some 25⟩ "MsgAdd"]).sum = 25 ∧
    (runFees (freshMeter 1000000)
      [FeeCall.feeWanted ⟨"stake", some 10⟩ "MsgAdd",
       FeeCall.consumeFee ⟨"stake", some 25⟩ "MsgAdd"]).2
      = some (Panic.invalidCoinDenominations "" "stake") ∧
    reconcile
      (runFees (freshMeter 1000000)
        [FeeCall.feeWanted ⟨"stake", some 10⟩ "MsgAdd",
         FeeCall.consumeFee ⟨"stake", some 25⟩ "MsgAdd"]).1.feesWanted
      (runFees (freshMeter 1000000)
        [FeeCall.feeWanted ⟨"stake", some 10⟩ "MsgAdd",
         FeeCall.consumeFee ⟨"stake", some 25⟩ "MsgAdd"]).1.usedFees "MsgAdd" = none ∧
    reconcile
      (runOps limitMeter (freshMeter 1000000)
        [MeterOp.FeeWanted ⟨"stake", some 10⟩ "MsgAdd",
         MeterOp.ConsumeFee ⟨"stake", some 25⟩ "MsgAdd"]).feesWanted
      (runOps limitMeter (freshMeter 1000000)
        [MeterOp.FeeWanted ⟨"stake", some 10⟩ "MsgAdd",
         MeterOp.ConsumeFee ⟨"stake", some 25⟩ "MsgAdd"]).usedFees "MsgAdd" = none ∧
    ledgerAmount
        (runOps limitMeter (freshMeter 1000000)
          [MeterOp.FeeWanted ⟨"stake", some 10⟩ "MsgAdd",
           MeterOp.ConsumeFee ⟨"stake", some 25⟩ "MsgAdd"]).usedFees "MsgAdd"
      - ledgerAmount
        (runOps limitMeter (freshMeter 1000000)
          [MeterOp.FeeWanted ⟨"stake", some 10⟩ "MsgAdd",
           MeterOp.ConsumeFee ⟨"stake", some 25⟩ "MsgAdd"]).feesWanted "MsgAdd" = 0 ∧
    (∀ (L σ : Type) (B : GasMeter σ) (logger : L) (base : σ) (ops : List MeterOp)
        (t : String),
      reconcile (runOps B (NewFeeTracingMeterWrapper logger base) ops).feesWanted
        (runOps B (NewFeeTracingMeterWrapper logger base) ops).usedFees t = none) := by
  refine ⟨by decide, by decide, by decide, by decide, by decide, by decide, ?_⟩
  intro L σ B logger base ops t
  have he := runOps_ledgers_empty B logger base ops
  unfold reconcile
  rw [he.1 t, he.2 t]

/-! ## Frame and arithmetic of ConsumeGas -/

/-- C21: for every base meter (failing or not), meter state, amount and purpose,
ConsumeGas(amount, purpose) leaves the used and calls entries of every other
purpose as they were and leaves usedFees and feesWanted unchanged. -/
theorem ConsumeGas_frame (B : GasMeter σ) (g : FeeGasMeter L σ) (amount : Gas)
    (purpose p : String) (hp : p ≠ purpose) :
    (FeeGasMeter.ConsumeGas B g amount purpose).meter.used p = g.used p ∧
    (FeeGasMeter.ConsumeGas B g amount purpose).meter.calls p = g.calls p ∧
    (FeeGasMeter.ConsumeGas B g amount purpose).meter.usedFees = g.usedFees ∧
    (FeeGasMeter.ConsumeGas B g amount purpose).meter.feesWanted = g.feesWanted :=
  ⟨GoMap.set_other _ _ _ _ hp, GoMap.set_other _ _ _ _ hp, rfl, rfl⟩

/-- Witness of C21: on a meter of limit 100 holding used["p"] = 7, the call
ConsumeGas(200, "q") runs out of gas and still leaves the entries of "p" and
both ledgers as they were. -/
theorem ConsumeGas_frame_witness :
    (FeeGasMeter.ConsumeGas limitMeter
        (⟨(), ⟨100, 0⟩, maxCallsMeter.used, maxCallsMeter.calls, stakedMeter.usedFees,
          stakedMeter.feesWanted⟩ : FeeGasMeter Unit LimitState) 200 "q").panic
      = some (Panic.ErrorOutOfGas "q") ∧
    ((FeeGasMeter.ConsumeGas limitMeter
        (⟨(), ⟨100, 0⟩, maxCallsMeter.used, maxCallsMeter.calls, stakedMeter.usedFees,
          stakedMeter.feesWanted⟩ : FeeGasMeter Unit LimitState) 200 "q").meter.used "p"
      = maxCallsMeter.used "p" ∧
    (FeeGasMeter.ConsumeGas limitMeter
        (⟨(), ⟨100, 0⟩, maxCallsMeter.used, maxCallsMeter.calls, stakedMeter.usedFees,
          stakedMeter.feesWanted⟩ : FeeGasMeter Unit LimitState) 200 "q").meter.calls "p"
      = maxCallsMeter.calls "p" ∧
    (FeeGasMeter.ConsumeGas limitMeter
        (⟨(), ⟨100, 0⟩, maxCallsMeter.used, maxCallsMeter.calls, stakedMeter.usedFees,
          stakedMeter.feesWanted⟩ : FeeGasMeter Unit LimitState) 200 "q").meter.usedFees
      = stakedMeter.usedFees ∧
    (FeeGasMeter.ConsumeGas limitMeter
        (⟨(), ⟨100, 0⟩, maxCallsMeter.used, maxCallsMeter.calls, stakedMeter.usedFees,
          stakedMeter.feesWanted⟩ : FeeGasMeter Unit LimitState) 200 "q").meter.feesWanted
      = stakedMeter.feesWanted) :=
  ⟨by simp [FeeGasMeter.ConsumeGas, limitMeter, uint64Size],
    ConsumeGas_frame limitMeter _ 200 "q" "p" (by decide)⟩

/-- C22: ConsumeGas adds in unsigned 64-bit arithmetic and raises no panic of
its own (its panic is the base meter's): for every meter state, amount and
purpose, used[purpose] after the call is (previous + amount) mod 2^64 and
calls[purpose] is (previous + 1) mod 2^64; the stored sum is the true sum
previous + amount exactly when that sum is below 2^64, and over any sequence
of calls on a fresh meter the recorded total of a purpose equals the true sum
of its amounts exactly when that sum is below 2^64. -/
theorem ConsumeGas_uint64 :
    (∀ (L σ : Type) (B : GasMeter σ) (g : FeeGasMeter L σ) (amount : Gas) (purpose : String),
      (FeeGasMeter.ConsumeGas B g amount purpose).meter.used.get 0 purpose
        = (g.used.get 0 purpose + amount) % 2 ^ 64 ∧
      (FeeGasMeter.ConsumeGas B g amount purpose).meter.calls.get 0 purpose
        = (g.calls.get 0 purpose + 1) % 2 ^ 64 ∧
      ((FeeGasMeter.ConsumeGas B g amount purpose).meter.used.get 0 purpose
          = g.used.get 0 purpose + amount ↔ g.used.get 0 purpose + amount < 2 ^ 64) ∧
      (FeeGasMeter.ConsumeGas B g amount purpose).panic
        = (B.ConsumeGas g.base amount purpose).2) ∧
    (∀ (L σ : Type) (B : GasMeter σ) (logger : L) (base : σ) (cs : List (Gas × String))
        (p : String),
      ((consumeAll B (NewFeeTracingMeterWrapper logger base) cs).used.get 0 p
          = purposeSum p cs ↔ purposeSum p cs < 2 ^ 64)) := by
  constructor
  · intro L σ B g amount purpose
    have hu : (FeeGasMeter.ConsumeGas B g amount purpose).meter.used.get 0 purpose
        = (g.used.get 0 purpose + amount) % 2 ^ 64 := by
      rw [ConsumeGas_used_get, if_pos rfl]; rfl
    have hc : (FeeGasMeter.ConsumeGas B g amount purpose).meter.calls.get 0 purpose
        = (g.calls.get 0 purpose + 1) % 2 ^ 64 := by
      rw [ConsumeGas_calls_get, if_pos rfl]; rfl
    refine ⟨hu, hc, ?_, rfl⟩
    rw [hu]
    constructor
    · intro h
      have := Nat.mod_lt (g.used.get 0 purpose + amount) (by decide : 0 < 2 ^ 64)
      omega
    · intro h
      exact Nat.mod_eq_of_lt h
  · intro L σ B logger base cs p
    have h0 : (NewFeeTracingMeterWrapper logger base).used.get 0 p = 0 := by
      simp [NewFeeTracingMeterWrapper, GoMap.get_empty]
    have h := consumeAll_used B cs p (NewFeeTracingMeterWrapper logger base)
      (by rw [h0]; exact uint64Size_pos)
    rw [h, h0, Nat.zero_add]
    have hsz : uint64Size = 2 ^ 64 := rfl
    rw [hsz]
    constructor
    · intro h'
      have := Nat.mod_lt (purposeSum p cs) (by decide : 0 < 2 ^ 64)
      omega
    · intro h'
      exact Nat.mod_eq_of_lt h'

/-! ## Failed fee recordings -/

/-- C23: when ConsumeFee or FeeWanted panics, the meter after the call is the
meter before it: the entry of that message type, every other entry, the other
ledger, the purpose-usage maps and the base meter are unchanged. -/
theorem fee_recording_failure_keeps_state (g : FeeGasMeter L σ) (amount : Coin)
    (msgType : String) :
    ((FeeGasMeter.ConsumeFee g amount msgType).panic ≠ none →
      (FeeGasMeter.ConsumeFee g amount msgType).meter = g) ∧
    ((FeeGasMeter.FeeWanted g amount msgType).panic ≠ none →
      (FeeGasMeter.FeeWanted g amount msgType).meter = g) := by
  constructor
  · intro h
    cases hadd : Coin.Add (g.usedFees.get Coin.zeroValue msgType) amount with
    | error e => rw [ConsumeFee_error g amount msgType e hadd]
    | ok c => rw [ConsumeFee_ok g amount msgType c hadd] at h; exact absurd rfl h
  · intro h
    cases hadd : Coin.Add (g.feesWanted.get Coin.zeroValue msgType) amount with
    | error e => rw [FeeWanted_error g amount msgType e hadd]
    | ok c => rw [FeeWanted_ok g amount msgType c hadd] at h; exact absurd rfl h

/-- Witness of C23: with 10 stake stored for "MsgAdd", recording 5 nhash panics
in either ledger and leaves the meter as it was. -/
theorem fee_recording_failure_keeps_state_witness :
    (FeeGasMeter.ConsumeFee stakedMeter ⟨"nhash", some 5⟩ "MsgAdd").meter = stakedMeter ∧
    (FeeGasMeter.FeeWanted stakedMeter ⟨"nhash", some 5⟩ "MsgAdd").meter = stakedMeter :=
  ⟨(fee_recording_failure_keeps_state stakedMeter ⟨"nhash", some 5⟩ "MsgAdd").1
      (by simp [FeeGasMeter.ConsumeFee, stakedMeter, GoMap.get, GoMap.set, Coin.Add]),
    (fee_recording_failure_keeps_state stakedMeter ⟨"nhash", some 5⟩ "MsgAdd").2
      (by simp [FeeGasMeter.FeeWanted, stakedMeter, GoMap.get, GoMap.set, Coin.Add])⟩

/-! ## Keys of the purpose-usage maps -/

theorem MeterOp.apply_used_key (B : GasMeter σ) (g : FeeGasMeter L σ) (op : MeterOp)
    (p : String) :
    ((op.apply B g).meter.used p ≠ none ↔ (g.used p ≠ none ∨ p ∈ consumedDescriptors [op])) ∧
    ((op.apply B g).meter.calls p ≠ none
      ↔ (g.calls p ≠ none ∨ p ∈ consumedDescriptors [op])) := by
  cases op with
  | ConsumeGas a d =>
    by_cases hp : p = d
    · subst hp
      simp [MeterOp.apply, FeeGasMeter.ConsumeGas, GoMap.set, consumedDescriptors]
    · simp [MeterOp.apply, FeeGasMeter.ConsumeGas, GoMap.set, consumedDescriptors, hp]
  | RefundGas a d => simp [MeterOp.apply, FeeGasMeter.RefundGas, consumedDescriptors]
  | ConsumeFee a t =>
    cases hadd : Coin.Add (g.usedFees.get Coin.zeroValue t) a with
    | error e => simp [MeterOp.apply, ConsumeFee_error g a t e hadd, consumedDescriptors]
    | ok c => simp [MeterOp.apply, ConsumeFee_ok g a t c hadd, consumedDescriptors]
  | FeeWanted a t =>
    cases hadd : Coin.Add (g.feesWanted.get Coin.zeroValue t) a with
    | error e => simp [MeterOp.apply, FeeWanted_error g a t e hadd, consumedDescriptors]
    | ok c => simp [MeterOp.apply, FeeWanted_ok g a t c hadd, consumedDescriptors]
  | query q => simp [MeterOp.apply, consumedDescriptors]

theorem consumedDescriptors_cons (op : MeterOp) (ops : List MeterOp) :
    consumedDescriptors (op :: ops) = consumedDescriptors [op] ++ consumedDescriptors ops := by
  unfold consumedDescriptors
  rw [← List.filterMap_append]
  rfl

theorem runOps_keys (B : GasMeter σ) (ops : List MeterOp) (p : String) :
    ∀ g : FeeGasMeter L σ,
      ((runOps B g ops).used p ≠ none ↔ (g.used p ≠ none ∨ p ∈ consumedDescriptors ops)) ∧
      ((runOps B g ops).calls p ≠ none
        ↔ (g.calls p ≠ none ∨ p ∈ consumedDescriptors ops)) := by
  induction ops with
  | nil => intro g; simp [runOps, consumedDescriptors]
  | cons op ops ih =>
    intro g
    have hstep := MeterOp.apply_used_key B g op p
    have ih' := ih (op.apply B g).meter
    rw [consumedDescriptors_cons, List.mem_append]
    simp only [runOps]
    rw [ih'.1, ih'.2, hstep.1, hstep.2]
    exact ⟨or_assoc, or_assoc⟩

/-- C24: in every state reached from a freshly constructed meter by a sequence
of operations (failed calls included), a purpose is a key of used exactly
when it was the descriptor of at least one ConsumeGas call of the sequence,
and likewise for calls, so the two maps have the same keys. After
ConsumeGas(200, "hash") on a fresh meter of limit 100, which fails with
out-of-gas, "hash" is a key of both maps. -/
theorem table_keys_are_consumed_descriptors :
    (∀ (L σ : Type) (B : GasMeter σ) (logger : L) (base : σ) (ops : List MeterOp)
        (p : String),
      ((runOps B (NewFeeTracingMeterWrapper logger base) ops).used p ≠ none
        ↔ p ∈ consumedDescriptors ops) ∧
      ((runOps B (NewFeeTracingMeterWrapper logger base) ops).calls p ≠ none
        ↔ p ∈ consumedDescriptors ops) ∧
      ((runOps B (NewFeeTracingMeterWrapper logger base) ops).used p ≠ none
        ↔ (runOps B (NewFeeTracingMeterWrapper logger base) ops).calls p ≠ none)) ∧
    ((MeterOp.ConsumeGas 200 "hash").apply limitMeter (freshMeter 100)).panic
      = some (Panic.ErrorOutOfGas "hash") ∧
    (runOps limitMeter (freshMeter 100)
        [MeterOp.ConsumeGas 200 "hash", MeterOp.RefundGas 1 "other"]).used "hash" ≠ none ∧
    (runOps limitMeter (freshMeter 100)
        [MeterOp.ConsumeGas 200 "hash", MeterOp.RefundGas 1 "other"]).calls "hash" ≠ none ∧
    (runOps limitMeter (freshMeter 100)
        [MeterOp.ConsumeGas 200 "hash", MeterOp.RefundGas 1 "other"]).used "other" = none := by
  refine ⟨?_, ?_, ?_, ?_, ?_⟩
  · intro L σ B logger base ops p
    have h := runOps_keys B ops p (NewFeeTracingMeterWrapper logger base)
    have hu : (NewFeeTracingMeterWrapper logger base).used p = none := rfl
    have hc : (NewFeeTracingMeterWrapper logger base).calls p = none := rfl
    rw [hu] at h
    rw [hc] at h
    have h1 : ((runOps B (NewFeeTracingMeterWrapper logger base) ops).used p ≠ none
        ↔ p ∈ consumedDescriptors ops) := by rw [h.1]; simp
    have h2 : ((runOps B (NewFeeTracingMeterWrapper logger base) ops).calls p ≠ none
        ↔ p ∈ consumedDescriptors ops) := by rw [h.2]; simp
    exact ⟨h1, h2, h1.trans h2.symm⟩
  · simp [MeterOp.apply, FeeGasMeter.ConsumeGas, limitMeter, freshMeter,
      NewFeeTracingMeterWrapper, uint64Size]
  · simp [runOps, MeterOp.apply, FeeGasMeter.ConsumeGas, FeeGasMeter.RefundGas, GoMap.set]
  · simp [runOps, MeterOp.apply, FeeGasMeter.ConsumeGas, FeeGasMeter.RefundGas, GoMap.set]
  · simp [runOps, MeterOp.apply, FeeGasMeter.ConsumeGas, FeeGasMeter.RefundGas, GoMap.set,
      freshMeter, NewFeeTracingMeterWrapper, GoMap.empty]


end Antewrapper

namespace AttributeCli

/-! ## toWritten -/

theorem baseWord_range (i : Int) (w : String) (h : baseWord i = some w) :
    0 ≤ i ∧ i ≤ 90 := by
  by_contra hc
  have hne : ∀ k : Int, 0 ≤ k → k ≤ 90 → ¬ i = k := by
    intro k hk0 hk1 he
    subst he
    exact hc ⟨hk0, hk1⟩
  have hnone : baseWord i = none := by
    unfold baseWord
    rw [if_neg (hne 0 (by decide) (by decide)),
      if_neg (hne 1 (by decide) (by decide)),
      if_neg (hne 2 (by decide) (by decide)),
      if_neg (hne 3 (by decide) (by decide)),
      if_neg (hne 4 (by decide) (by decide)),
      if_neg (hne 5 (by decide) (by decide)),
      if_neg (hne 6 (by decide) (by decide)),
      if_neg (hne 7 (by decide) (by decide)),
      if_neg (hne 8 (by decide) (by decide)),
      if_neg (hne 9 (by decide) (by decide)),
      if_neg (hne 10 (by decide) (by decide)),
      if_neg (hne 11 (by decide) (by decide)),
      if_neg (hne 12 (by decide) (by decide)),
      if_neg (hne 13 (by decide) (by decide)),
      if_neg (hne 14 (by decide) (by decide)),
      if_neg (hne 15 (by decide) (by decide)),
      if_neg (hne 16 (by decide) (by decide)),
      if_neg (hne 17 (by decide) (by decide)),
      if_neg (hne 18 (by decide) (by decide)),
      if_neg (hne 19 (by decide) (by decide)),
      if_neg (hne 20 (by decide) (by decide)),
      if_neg (hne 30 (by decide) (by decide)),
      if_neg (hne 40 (by decide) (by decide)),
      if_neg (hne 50 (by decide) (by decide)),
      if_neg (hne 60 (by decide) (by decide)),
      if_neg (hne 70 (by decide) (by decide)),
      if_neg (hne 80 (by decide) (by decide)),
      if_neg (hne 90 (by decide) (by decide))]
  rw [hnone] at h
  cases h

theorem toWritten_base (i : Int) (w : String) (h : baseWord i = some w) :
    toWritten i = Except.ok w := by
  have hrange := baseWord_range i w h
  rw [toWritten]
  have hr : ¬ (i < 0 ∨ i > 999) := by omega
  rw [dif_neg hr]
  split
  · rename_i w' hw'
    rw [h] at hw'
    cases hw'
    rfl
  · rename_i hnone
    rw [h] at hnone
    cases hnone

theorem baseWord_tens (i : Int) (h0 : 0 ≤ i) (h1 : i < 100) (h : baseWord i = none) :
    20 < i ∧ i % 10 ≠ 0 ∧ ∃ l, baseWord (i - i % 10) = some l := by
  interval_cases i <;> simp [baseWord] at h ⊢

theorem baseWord_hundreds (i : Int) (h0 : 100 ≤ i) (h1 : i ≤ 999) :
    baseWord i = none ∧ ∃ l, baseWord (i / 100) = some l := by
  constructor
  · cases hb : baseWord i with
    | none => rfl
    | some w =>
      have := baseWord_range i w hb
      omega
  · have hq0 : 1 ≤ i / 100 := by omega
    have hq1 : i / 100 ≤ 9 := by omega
    generalize i / 100 = q at hq0 hq1
    interval_cases q <;> simp [baseWord]

/-- The step of `toWritten` below 100, outside the literal cases. -/
theorem toWritten_tens (i : Int) (h0 : 0 ≤ i) (h1 : i < 100) (h : baseWord i = none)
    (l : String) (hl : baseWord (i - i % 10) = some l) :
    toWritten i = Except.ok (l ++ fmtD (i % 10)) := by
  have hmod := (baseWord_tens i h0 h1 h).2.1
  rw [toWritten]
  have hr : ¬ (i < 0 ∨ i > 999) := by omega
  rw [dif_neg hr]
  split
  · rename_i w hw
    rw [h] at hw
    cases hw
  · rw [dif_pos h1]
    simp only [toWritten_base _ l hl, if_neg hmod]

/-- The step of `toWritten` from 100 on. -/
theorem toWritten_hundreds (i : Int) (h0 : 100 ≤ i) (h1 : i ≤ 999) (l : String)
    (hl : baseWord (i / 100) = some l) :
    toWritten i
      = if i % 100 = 0 then Except.ok (l ++ "hun")
        else Except.ok (l ++ "hun" ++ fmtD (i % 100)) := by
  have hnone := (baseWord_hundreds i h0 h1).1
  rw [toWritten]
  have hr : ¬ (i < 0 ∨ i > 999) := by omega
  rw [dif_neg hr]
  split
  · rename_i w hw
    rw [hnone] at hw
    cases hw
  · have hge : ¬ i < 100 := by omega
    rw [dif_neg hge]
    simp only [toWritten_base _ l hl]

/-- On 0..999 `toWritten` returns its closed form. -/
theorem toWritten_eq_closed (i : Int) (h0 : 0 ≤ i) (h1 : i ≤ 999) :
    toWritten i = Except.ok (toWrittenClosed i) := by
  cases hb : baseWord i with
  | some w =>
    rw [toWritten_base i w hb]
    simp [toWrittenClosed, hb]
  | none =>
    by_cases hlt : i < 100
    · obtain ⟨_, _, l, hl⟩ := baseWord_tens i h0 hlt hb
      rw [toWritten_tens i h0 hlt hb l hl]
      simp [toWrittenClosed, hb, hlt, hl]
    · have h100 : 100 ≤ i := by omega
      obtain ⟨_, l, hl⟩ := baseWord_hundreds i h100 h1
      rw [toWritten_hundreds i h100 h1 l hl]
      by_cases hm : i % 100 = 0
      · simp [toWrittenClosed, hb, hlt, hl, hm]
      · simp [toWrittenClosed, hb, hlt, hl, hm]

theorem toWritten_out_of_range (i : Int) (h : i < 0 ∨ i > 999) :
    toWritten i = Except.error toWrittenPanic := by
  rw [toWritten, dif_pos h]

/-! ## The written forms of 0..999 -/

set_option maxRecDepth 1000000 in
theorem closed_nonempty : ∀ n, n < 1000 → toWrittenClosed ((n : Nat) : Int) ≠ "" := by
  decide!

set_option maxRecDepth 1000000 in
theorem decode_closed : ∀ n, n < 1000 → decode (toWrittenClosed ((n : Nat) : Int)) = n := by
  decide!

set_option maxRecDepth 1000000 in
theorem closed_endsIn7 : ∀ n, n < 500 →
    (endsIn7 (Except.ok (toWrittenClosed ((n : Nat) : Int))) = true
      ↔ (n % 10 = 7 ∧ n ≠ 7 ∧ n ≠ 17)) := by
  decide!

set_option maxRecDepth 1000000 in
theorem closed_endsIn7_count :
    ((List.range 500).filter
      (fun n => endsIn7 (Except.ok (toWrittenClosed ((n : Nat) : Int))))).length = 48 := by
  decide!

set_option maxRecDepth 1000000 in
theorem last_digit_7_count :
    ((List.range accAttrCount).filter (fun n => decide (n % 10 = 7))).length = 50 := by
  decide!

theorem toWritten_nat (n : Nat) (h : n < 1000) :
    toWritten (n : Int) = Except.ok (toWrittenClosed (n : Int)) :=
  toWritten_eq_closed _ (by omega) (by omega)

theorem toWrittenClosed_injective (i j : Int) (hi0 : 0 ≤ i) (hi1 : i ≤ 999) (hj0 : 0 ≤ j)
    (hj1 : j ≤ 999) (h : toWrittenClosed i = toWrittenClosed j) : i = j := by
  have hi : ((i.toNat : Nat) : Int) = i := Int.toNat_of_nonneg hi0
  have hj : ((j.toNat : Nat) : Int) = j := Int.toNat_of_nonneg hj0
  have di := decode_closed i.toNat (by omega)
  have dj := decode_closed j.toNat (by omega)
  rw [hi] at di
  rw [hj] at dj
  rw [h, dj] at di
  omega

/-- C27: for every i with 100 <= i <= 999 and i mod 100 != 0, toWritten(i) is
toWritten(i / 100) followed by "hun" and the decimal rendering of i mod 100;
for every i with 21 <= i <= 99 and i mod 10 != 0, toWritten(i) is the word of
the literal case i - i mod 10 followed by the decimal rendering of the digit
i mod 10. -/
theorem toWritten_composite (i : Int) :
    (100 ≤ i → i ≤ 999 → i % 100 ≠ 0 →
      ∃ l, toWritten (i / 100) = Except.ok l ∧
        toWritten i = Except.ok (l ++ "hun" ++ fmtD (i % 100)) ∧
        fmtD (i % 100) = Nat.repr (i % 100).toNat) ∧
    (21 ≤ i → i ≤ 99 → i % 10 ≠ 0 →
      ∃ l, baseWord (i - i % 10) = some l ∧ toWritten (i - i % 10) = Except.ok l ∧
        toWritten i = Except.ok (l ++ fmtD (i % 10)) ∧
        fmtD (i % 10) = Nat.repr (i % 10).toNat) := by
  constructor
  · intro h0 h1 hm
    obtain ⟨_, l, hl⟩ := baseWord_hundreds i h0 h1
    refine ⟨l, toWritten_base _ l hl, ?_, ?_⟩
    · rw [toWritten_hundreds i h0 h1 l hl, if_neg hm]
    · have hr : 0 ≤ i % 100 := by omega
      obtain ⟨n, hn⟩ := Int.eq_ofNat_of_zero_le hr
      rw [hn]
      rfl
  · intro h0 h1 hm
    have hnone : baseWord i = none := by
      cases hb : baseWord i with
      | none => rfl
      | some w =>
        exfalso
        have hq0 : 2 ≤ i / 10 := by omega
        have hq1 : i / 10 ≤ 9 := by omega
        have hr0 : 1 ≤ i % 10 := by omega
        have hr1 : i % 10 ≤ 9 := by omega
        have hi : i = 10 * (i / 10) + i % 10 := by omega
        generalize i / 10 = q at hq0 hq1 hi
        generalize i % 10 = r at hr0 hr1 hi
        subst hi
        interval_cases q <;> interval_cases r <;> simp [baseWord] at hb
    obtain ⟨_, _, l, hl⟩ := baseWord_tens i (by omega) (by omega) hnone
    refine ⟨l, hl, toWritten_base _ l hl, toWritten_tens i (by omega) (by omega) hnone l hl, ?_⟩
    have hr : 0 ≤ i % 10 := by omega
    obtain ⟨n, hn⟩ := Int.eq_ofNat_of_zero_le hr
    rw [hn]
    rfl

/-- Witness of C27: toWritten(115) = "onehun15" and toWritten(38) = "thirty8". -/
theorem toWritten_composite_witness :
    (∃ l, toWritten (115 / 100) = Except.ok l ∧
        toWritten 115 = Except.ok (l ++ "hun" ++ fmtD (115 % 100)) ∧
        fmtD (115 % 100) = Nat.repr (115 % 100 : Int).toNat) ∧
    (∃ l, baseWord (38 - 38 % 10) = some l ∧ toWritten (38 - 38 % 10) = Except.ok l ∧
        toWritten 38 = Except.ok (l ++ fmtD (38 % 10)) ∧
        fmtD (38 % 10) = Nat.repr (38 % 10 : Int).toNat) ∧
    toWritten 115 = Except.ok "onehun15" ∧ toWritten 38 = Except.ok "thirty8" :=
  ⟨(toWritten_composite 115).1 (by decide) (by decide) (by decide),
    (toWritten_composite 38).2 (by decide) (by decide) (by decide),
    (toWritten_eq_closed 115 (by decide) (by decide)).trans
      (congrArg Except.ok (by decide : toWrittenClosed 115 = "onehun15")),
    (toWritten_eq_closed 38 (by decide) (by decide)).trans
      (congrArg Except.ok (by decide : toWrittenClosed 38 = "thirty8"))⟩

/-- C28: toWritten(i) panics if and only if i < 0 or i > 999; for every i with
0 <= i <= 999 it returns a non-empty string, the argument of each recursive
call being a literal case of the switch. -/
theorem toWritten_panics_iff (i : Int) :
    ((∃ e, toWritten i = Except.error e) ↔ (i < 0 ∨ i > 999)) ∧
    (0 ≤ i → i ≤ 999 → ∃ w, toWritten i = Except.ok w ∧ w ≠ "") ∧
    (0 ≤ i → i < 100 → baseWord i = none → baseWord (i - i % 10) ≠ none) ∧
    (100 ≤ i → i ≤ 999 → baseWord (i / 100) ≠ none) := by
  refine ⟨?_, ?_, ?_, ?_⟩
  · constructor
    · rintro ⟨e, he⟩
      by_contra hc
      rw [toWritten_eq_closed i (by omega) (by omega)] at he
      cases he
    · intro h
      exact ⟨_, toWritten_out_of_range i h⟩
  · intro h0 h1
    refine ⟨_, toWritten_eq_closed i h0 h1, ?_⟩
    have hn := closed_nonempty i.toNat (by omega)
    rw [Int.toNat_of_nonneg h0] at hn
    exact hn
  · intro h0 h1 hb
    obtain ⟨_, _, l, hl⟩ := baseWord_tens i h0 h1 hb
    rw [hl]
    simp
  · intro h0 h1
    obtain ⟨_, l, hl⟩ := baseWord_hundreds i h0 h1
    rw [hl]
    simp

/-- Witness of C28: toWritten(1000) and toWritten(-1) panic, toWritten(999)
returns a non-empty string. -/
theorem toWritten_panics_iff_witness :
    (∃ e, toWritten 1000 = Except.error e) ∧ (∃ e, toWritten (-1) = Except.error e) ∧
    (∃ w, toWritten 999 = Except.ok w ∧ w ≠ "") ∧ baseWord (999 / 100) ≠ none :=
  ⟨(toWritten_panics_iff 1000).1.2 (by decide), (toWritten_panics_iff (-1)).1.2 (by decide),
    (toWritten_panics_iff 999).2.1 (by decide) (by decide),
    (toWritten_panics_iff 999).2.2.2 (by decide) (by decide)⟩

/-- C29: among the integers i with 0 <= i < 500 (the attributes generated for
account 3), exactly 48 have a toWritten(i) that ends in the character '7':
those whose last decimal digit is 7, of which there are 50, except 7 and 17. -/
theorem toWritten_endsIn7_count :
    ((List.range accAttrCount).filter
      (fun n => endsIn7 (toWritten ((n : Nat) : Int)))).length = 48 ∧
    (∀ n : Nat, n < accAttrCount →
      (endsIn7 (toWritten (n : Int)) = true ↔ (n % 10 = 7 ∧ n ≠ 7 ∧ n ≠ 17))) ∧
    ((List.range accAttrCount).filter (fun n => decide (n % 10 = 7))).length = 50 ∧
    toWritten 7 = Except.ok "seven" ∧ toWritten 17 = Except.ok "seventeen" := by
  refine ⟨?_, ?_, last_digit_7_count, ?_, ?_⟩
  · have hcongr : (List.range accAttrCount).filter
          (fun n => endsIn7 (toWritten ((n : Nat) : Int)))
        = (List.range 500).filter
          (fun n => endsIn7 (Except.ok (toWrittenClosed ((n : Nat) : Int)))) := by
      apply List.filter_congr
      intro n hn
      have hlt : n < 500 := List.mem_range.mp hn
      rw [toWritten_nat n (by omega)]
    rw [hcongr]
    exact closed_endsIn7_count
  · intro n hn
    have hlt : n < 500 := hn
    rw [toWritten_nat n (by omega)]
    exact closed_endsIn7 n hlt
  · exact toWritten_base 7 _ (by decide)
  · exact toWritten_base 17 _ (by decide)

/-- Witness of C29: toWritten(27) ends in '7' and toWritten(7) does not. -/
theorem toWritten_endsIn7_count_witness :
    endsIn7 (toWritten ((27 : Nat) : Int)) = true ∧
    ¬ endsIn7 (toWritten ((7 : Nat) : Int)) = true :=
  ⟨(toWritten_endsIn7_count.2.1 27 (by decide)).2 (by decide),
    fun h => absurd ((toWritten_endsIn7_count.2.1 7 (by decide)).1 h) (by decide)⟩

theorem append_left_cancel (p a b : String) (h : p ++ a = p ++ b) : a = b := by
  have hd := congrArg String.data h
  rw [String.data_append, String.data_append] at hd
  exact String.ext (List.append_cancel_left hd)

/-- C30: for every i and j with 0 <= i < j <= 999, toWritten(i) and toWritten(j)
are different strings, and so are the attribute names
"example.attribute." + toWritten(i) and "example.attribute." + toWritten(j). -/
theorem toWritten_injective (i j : Int) (h0 : 0 ≤ i) (hij : i < j) (hj : j ≤ 999) :
    toWritten i ≠ toWritten j ∧ attributeName i ≠ attributeName j := by
  have hi := toWritten_eq_closed i h0 (by omega)
  have hj' := toWritten_eq_closed j (by omega) hj
  have hne : toWrittenClosed i ≠ toWrittenClosed j := by
    intro h
    have := toWrittenClosed_injective i j h0 (by omega) (by omega) hj h
    omega
  constructor
  · rw [hi, hj']
    intro h
    exact hne (Except.ok.inj h)
  · unfold attributeName
    rw [hi, hj']
    intro h
    exact hne (append_left_cancel _ _ _ (Except.ok.inj h))

/-- Witness of C30: toWritten(7) and toWritten(17) differ, and so do the two
attribute names. -/
theorem toWritten_injective_witness :
    toWritten 7 ≠ toWritten 17 ∧ attributeName 7 ≠ attributeName 17 :=
  toWritten_injective 7 17 (by decide) (by decide) (by decide)

/-! ## attrSorter.Less -/

/-- The first two keys of `Less` work as announced: attributes with different
names are ordered by name, and attributes with the same name and different
types by type. -/
theorem lessAttr_name_type (x y : Attribute) :
    (x.Name ≠ y.Name → lessAttr x y = decide (x.Name < y.Name)) ∧
    (x.Name = y.Name → x.AttributeType ≠ y.AttributeType →
      lessAttr x y = decide (x.AttributeType < y.AttributeType)) := by
  constructor
  · intro h
    simp [lessAttr, h]
  · intro hn ht
    simp [lessAttr, hn, ht]

/-- C25, at the failing input: for the two attributes of account 4 with the
values toWritten(11) = "eleven" and toWritten(8) = "eight" (same name, type and
address), Less(0, 1) is true although "eleven" is not below "eight" in the
byte-wise lexicographic order, under which the announced order gives false:
the nested loops compare the first byte of the one value ('e') with the second
byte of the other ('i'). With two equal values "eight" and addresses "b" and
"a", Less(0, 1) is true although the announced order falls through to the
addresses and gives false. -/
theorem Less_not_lexicographic :
    attrSorter.Less [overloadAttr "eleven", overloadAttr "eight"] 0 1 = some true ∧
    lexLess (overloadAttr "eleven") (overloadAttr "eight") = false ∧
    attrSorter.Less
      [⟨"example.attribute.overload", bytesOf "eight", 3, "b"⟩,
       ⟨"example.attribute.overload", bytesOf "eight", 3, "a"⟩] 0 1 = some true ∧
    lexLess ⟨"example.attribute.overload", bytesOf "eight", 3, "b"⟩
      ⟨"example.attribute.overload", bytesOf "eight", 3, "a"⟩ = false ∧
    toWritten 11 = Except.ok "eleven" ∧ toWritten 8 = Except.ok "eight" :=
  ⟨by decide, by decide, by decide, by decide!, toWritten_base 11 _ (by decide),
    toWritten_base 8 _ (by decide)⟩

/-- C26, at the failing input: for the attribute of account 4 with the value
toWritten(8) = "eight", Less(0, 0) is true, and for the two attributes with the
values "eight" and "eleven", Less(0, 1) and Less(1, 0) are both true. -/
theorem Less_not_strict :
    attrSorter.Less [overloadAttr "eight"] 0 0 = some true ∧
    attrSorter.Less [overloadAttr "eight", overloadAttr "eleven"] 0 1 = some true ∧
    attrSorter.Less [overloadAttr "eight", overloadAttr "eleven"] 1 0 = some true ∧
    lessLoops (bytesOf "eight") (bytesOf "eight") = some true :=
  ⟨by decide, by decide, by decide, by decide⟩

end AttributeCli
